import Mathlib

/-!
# MedicineRegistry — shallow embedding and verification

A shallow embedding of `src/contracts/MedicineRegistry.sol` (the batch /
participant / channel state machine of the MediTrust repository) and proofs
about it.

Modelling conventions:
* Solidity `address` is a `Nat` (`0` is the null address), `bytes32` channel
  ids are `Nat`, `string` is `String`, `uint256` is `Nat`.
* A Solidity `mapping` is an association list looked up with a default value
  (`lookupD`), exactly mirroring storage's zero-initialised slots; an update
  conses a new binding in front.
* Every external function is a total function `... → State → Except Err State`;
  `.error e` models an EVM revert (the transaction rolls back, so no state is
  returned with an error — this is precisely Solidity's revert semantics).
* ECDSA recovery is not re-implemented: each call that carries a signature
  carries instead the address that `ECDSA.recover` returns for it (`recovered`).
  The contract only ever compares that address, so this is an exact model of
  the control flow for every possible signature.
* `AccessControl.hasRole` for `MANUFACTURER_ROLE` / `CHANNEL_ROLE` is an
  environment predicate supplied with each call (`Env`), since role grants are
  managed by the inherited OpenZeppelin contract, outside this file's scope.
* The storage variables `pendingRewards`, `lastVerification` and the constant
  `VERIFICATION_COOLDOWN` are declared in the source but never read or written
  by any function of the contract; they are omitted.
-/

/-- Solidity `address`, as a natural number; `0` is `address(0)`. -/
abbrev Address := Nat

/-- Batch ids are the contract's `string` keys. -/
abbrev BatchId := String

/-- `bytes32` channel ids, abstracted to `Nat`. -/
abbrev ChannelId := Nat

/-- `uint256` timestamps. -/
abbrev Timestamp := Nat

/-- `enum SupplyChainRole` of the contract. -/
inductive SupplyChainRole where
  | NONE
  | TRANSPORTER
  | SUPPLIER
  | DISTRIBUTOR
  | WHOLESALER
  | RETAILER
deriving DecidableEq, Repr

/-- `struct SupplyChainParticipant`. -/
structure SupplyChainParticipant where
  participantAddress : Address
  role : SupplyChainRole
  hasVerified : Bool
  verifiedAt : Timestamp
  location : String
  additionalData : String
deriving DecidableEq, Repr

/-- The zero value of a `SupplyChainParticipant` storage slot. -/
def defaultParticipant : SupplyChainParticipant :=
  ⟨0, .NONE, false, 0, "", ""⟩

/-- `struct MedicineBatch`.  The struct-internal
`mapping(address => bool) isParticipant` is modelled as the list of addresses
the mapping sends to `true`. -/
structure MedicineBatch where
  manufacturer : Address
  batchId : BatchId
  drugName : String
  ingredients : String
  expiryDate : Timestamp
  registeredAt : Timestamp
  channelId : ChannelId
  supplyChainParticipants : List SupplyChainParticipant
  isParticipant : List Address
  totalParticipants : Nat
  verifiedCount : Nat
  rewardClaimed : Bool
  rewardClaimedBy : Address
  rewardClaimedAt : Timestamp
  exists_ : Bool
deriving DecidableEq, Repr

/-- The zero value of a `MedicineBatch` storage slot (`exists_ = false`). -/
def defaultBatch : MedicineBatch :=
  { manufacturer := 0, batchId := "", drugName := "", ingredients := ""
    expiryDate := 0, registeredAt := 0, channelId := 0
    supplyChainParticipants := [], isParticipant := []
    totalParticipants := 0, verifiedCount := 0
    rewardClaimed := false, rewardClaimedBy := 0, rewardClaimedAt := 0
    exists_ := false }

/-- `struct StateChannel`. -/
structure StateChannel where
  id : ChannelId
  participants : List Address
  nonce : Nat
  isOpen : Bool
  openedAt : Timestamp
  closedAt : Timestamp
deriving DecidableEq, Repr

/-- The zero value of a `StateChannel` storage slot. -/
def defaultChannel : StateChannel := ⟨0, [], 0, false, 0, 0⟩

/-- `struct BatchData`, one entry of a settlement's decoded final state. -/
structure BatchData where
  batchId : BatchId
  drugName : String
  ingredients : String
  expiryDate : Timestamp
  supplyChainAddresses : List Address
  supplyChainRoles : List SupplyChainRole
deriving DecidableEq, Repr

/-- The revert reasons of the contract, one constructor per `require` string
(and one per `onlyRole` modifier failure). -/
inductive Err where
  | BatchAlreadyExists       -- "Batch already exists"
  | ExpiryNotFuture          -- "Expiry date must be in future"
  | LengthMismatch           -- "Participants and roles mismatch"
  | NoParticipants           -- "At least one participant required"
  | InvalidParticipantAddr   -- "Invalid participant address"
  | DuplicateParticipant     -- "Duplicate participant"
  | ChannelNotOpen           -- "Channel not open"
  | InvalidSigner            -- "Invalid signer"
  | SignerNotManufacturer    -- "Signer not a manufacturer"
  | BatchNotFound            -- "Batch not found"
  | NotAuthorizedParticipant -- "Not authorized participant"
  | BatchAlreadyCompleted    -- "Batch already completed"
  | InvalidSignature         -- "Invalid signature"
  | AlreadyVerified          -- "Already verified"
  | RewardAlreadyClaimed     -- "Reward already claimed"
  | VerificationIncomplete   -- "Supply chain verification incomplete"
  | ParticipantCannotClaim   -- "Supply chain participants cannot claim rewards"
  | ChannelAlreadyOpen       -- "Channel already open"
  | MissingChannelRole       -- onlyRole(CHANNEL_ROLE) failure
deriving DecidableEq, Repr

deriving instance DecidableEq for Except

/-- Association-list lookup with a default, modelling a Solidity mapping:
an absent key reads the slot's zero value. -/
def lookupD {α β : Type} [DecidableEq α] (m : List (α × β)) (k : α) (d : β) : β :=
  match m with
  | [] => d
  | (k', v) :: rest => if k' = k then v else lookupD rest k d

/-- The contract's storage. -/
structure State where
  batches : List (BatchId × MedicineBatch)
  channels : List (ChannelId × StateChannel)
  batchParticipantsList : List (BatchId × List Address)
  batchParticipants : List ((BatchId × Address) × SupplyChainParticipant)
deriving DecidableEq, Repr

/-- `batches[b]`. -/
def State.batch (s : State) (b : BatchId) : MedicineBatch :=
  lookupD s.batches b defaultBatch

/-- `channels[c]`. -/
def State.chan (s : State) (c : ChannelId) : StateChannel :=
  lookupD s.channels c defaultChannel

/-- `batchParticipants[b][a]`. -/
def State.bp (s : State) (b : BatchId) (a : Address) : SupplyChainParticipant :=
  lookupD s.batchParticipants (b, a) defaultParticipant

/-- The contract's storage right after the constructor ran: every mapping
is empty. -/
def initialState : State := ⟨[], [], [], []⟩

/-- `CUSTOMER_REWARD = 1 ether` (in wei). -/
def customerReward : Nat := 10 ^ 18

/-- The participant record the registration loop pushes for `(address, role)`:
`hasVerified = false`, `verifiedAt = 0`, empty optional strings. -/
def mkParticipant (pr : Address × SupplyChainRole) : SupplyChainParticipant :=
  ⟨pr.1, pr.2, false, 0, "", ""⟩

/-- The `for` loop of `registerBatchWithSupplyChain` (source lines 185–198):
checks each address against `address(0)` and against the batch's
`isParticipant` mapping, then pushes the participant record, marks the
mapping and writes `batchParticipants[_batchId][p]`. -/
def addParticipantsLoop (bid : BatchId) (pairs : List (Address × SupplyChainRole))
    (bt : MedicineBatch) (bp : List ((BatchId × Address) × SupplyChainParticipant)) :
    Except Err (MedicineBatch × List ((BatchId × Address) × SupplyChainParticipant)) :=
  match pairs with
  | [] => .ok (bt, bp)
  | (a, r) :: rest =>
    if a = 0 then .error .InvalidParticipantAddr
    else if bt.isParticipant.contains a then .error .DuplicateParticipant
    else
      addParticipantsLoop bid rest
        { bt with
          supplyChainParticipants := bt.supplyChainParticipants ++ [mkParticipant (a, r)]
          isParticipant := a :: bt.isParticipant }
        (((bid, a), mkParticipant (a, r)) :: bp)

/-- `registerBatchWithSupplyChain` (internal; source lines 156–207).
`sender` is `msg.sender`, `now` is `block.timestamp`.  The batch record is
built from whatever `batches[_batchId]` holds (its zero value in any
reachable state), exactly as the Solidity storage reference does. -/
def registerBatchWithSupplyChain (sender : Address) (now : Timestamp)
    (bid drug ingr : String) (expiry : Timestamp)
    (participants : List Address) (roles : List SupplyChainRole)
    (cid : ChannelId) (s : State) : Except Err State :=
  if (s.batch bid).exists_ then .error .BatchAlreadyExists
  else if ¬ expiry > now then .error .ExpiryNotFuture
  else if participants.length ≠ roles.length then .error .LengthMismatch
  else if participants.length = 0 then .error .NoParticipants
  else
    let bt0 : MedicineBatch :=
      { s.batch bid with
        manufacturer := sender, batchId := bid, drugName := drug
        ingredients := ingr, expiryDate := expiry, registeredAt := now
        channelId := cid, totalParticipants := participants.length
        verifiedCount := 0, rewardClaimed := false, exists_ := true }
    match addParticipantsLoop bid (participants.zip roles) bt0 s.batchParticipants with
    | .error e => .error e
    | .ok (bt, bp) =>
      .ok { s with
            batches := (bid, bt) :: s.batches
            batchParticipants := bp
            batchParticipantsList := (bid, participants) :: s.batchParticipantsList }

/-- `isChannelParticipant` (source lines 139–151). -/
def isChannelParticipant (s : State) (cid : ChannelId) (a : Address) : Bool :=
  (s.chan cid).participants.contains a

/-- The settlement loop of `settleChannel` (source lines 231–247): entries
whose batch id already exists are skipped, the rest are registered (with
`msg.sender` of the settlement call and the channel id). -/
def settleLoop (sender : Address) (now : Timestamp) (cid : ChannelId) :
    List BatchData → State → Except Err State
  | [], s => .ok s
  | d :: rest, s =>
    if (s.batch d.batchId).exists_ then settleLoop sender now cid rest s
    else
      match registerBatchWithSupplyChain sender now d.batchId d.drugName
          d.ingredients d.expiryDate d.supplyChainAddresses d.supplyChainRoles cid s with
      | .error e => .error e
      | .ok s1 => settleLoop sender now cid rest s1

/-- `settleChannel` (source lines 212–255).  `batchDataList` is the decoded
`_finalState`; `recovered` is the address ECDSA recovery yields for the
submitted signature over it; `isManufacturer` is `hasRole(MANUFACTURER_ROLE, ·)`. -/
def settleChannel (sender : Address) (now : Timestamp)
    (isManufacturer : Address → Bool) (cid : ChannelId)
    (batchDataList : List BatchData) (recovered : Address) (s : State) :
    Except Err State :=
  if (s.chan cid).isOpen = false then .error .ChannelNotOpen
  else if isChannelParticipant s cid recovered = false then .error .InvalidSigner
  else if isManufacturer recovered = false then .error .SignerNotManufacturer
  else
    match settleLoop sender now cid batchDataList s with
    | .error e => .error e
    | .ok s1 =>
      let ch := s1.chan cid
      .ok { s1 with
            channels :=
              (cid, { ch with isOpen := false, closedAt := now, nonce := ch.nonce + 1 })
                :: s1.channels }

/-- The `for` loop of `verifySupplyChainTransfer` (source lines 277–304):
find the first array entry whose address is the caller; revert
`"Already verified"` if it has verified, otherwise update it and `break`.
Returns the updated array and whether a matching entry was found. -/
def verifyLoop (sender : Address) (now : Timestamp) (loc extra : String) :
    List SupplyChainParticipant → Except Err (List SupplyChainParticipant × Bool)
  | [] => .ok ([], false)
  | p :: rest =>
    if p.participantAddress = sender then
      if p.hasVerified then .error .AlreadyVerified
      else
        .ok ({ p with hasVerified := true, verifiedAt := now,
                      location := loc, additionalData := extra } :: rest, true)
    else
      match verifyLoop sender now loc extra rest with
      | .error e => .error e
      | .ok (rest2, found) => .ok (p :: rest2, found)

/-- `verifySupplyChainTransfer` (source lines 260–305).  `recovered` is the
address ECDSA recovery yields for the submitted signature over
`(batchId, msg.sender, location, additionalData)`.  When the loop finds the
caller it also increments `verifiedCount` and mirrors the update into the
`batchParticipants` mapping, as the source does inside the loop body. -/
def verifySupplyChainTransfer (sender : Address) (now : Timestamp)
    (recovered : Address) (bid : BatchId) (loc extra : String) (s : State) :
    Except Err State :=
  let bt := s.batch bid
  if bt.exists_ = false then .error .BatchNotFound
  else if bt.isParticipant.contains sender = false then .error .NotAuthorizedParticipant
  else if bt.rewardClaimed then .error .BatchAlreadyCompleted
  else if recovered ≠ sender then .error .InvalidSignature
  else
    match verifyLoop sender now loc extra bt.supplyChainParticipants with
    | .error e => .error e
    | .ok (parts2, found) =>
      let bt2 : MedicineBatch :=
        { bt with
          supplyChainParticipants := parts2
          verifiedCount := bt.verifiedCount + (if found then 1 else 0) }
      if found then
        .ok { s with
              batches := (bid, bt2) :: s.batches
              batchParticipants :=
                ((bid, sender),
                  { s.bp bid sender with
                    hasVerified := true, verifiedAt := now,
                    location := loc, additionalData := extra })
                  :: s.batchParticipants }
      else
        .ok { s with batches := (bid, bt2) :: s.batches }

/-- One primitive effect of `claimCustomerReward`'s body, in program order:
the three storage writes, then the external `mediToken.mint` call.  The
`mint` event records the storage state at the moment the external call is
made. -/
inductive ClaimEvent where
  | setRewardClaimed (bid : BatchId) (v : Bool)
  | setRewardClaimedBy (bid : BatchId) (a : Address)
  | setRewardClaimedAt (bid : BatchId) (t : Timestamp)
  | mint (snapshot : State) (toAddr : Address) (amount : Nat)
deriving DecidableEq

/-- `claimCustomerReward` (source lines 310–331), instrumented with the
ordered list of its effects (storage writes and the external mint call,
in the order the body performs them). -/
def claimCustomerRewardTr (sender : Address) (now : Timestamp) (bid : BatchId)
    (s : State) : Except Err (State × List ClaimEvent) :=
  let bt := s.batch bid
  if bt.exists_ = false then .error .BatchNotFound
  else if bt.rewardClaimed then .error .RewardAlreadyClaimed
  else if bt.verifiedCount ≠ bt.totalParticipants then .error .VerificationIncomplete
  else if bt.isParticipant.contains sender then .error .ParticipantCannotClaim
  else
    -- `batch` is a storage reference: each assignment stores the slot's
    -- current value with one more field changed, in program order.
    let bt1 := { bt with rewardClaimed := true }
    let s1 : State := { s with batches := (bid, bt1) :: s.batches }
    let bt2 := { bt1 with rewardClaimedBy := sender }
    let s2 : State := { s1 with batches := (bid, bt2) :: s1.batches }
    let bt3 := { bt2 with rewardClaimedAt := now }
    let s3 : State := { s2 with batches := (bid, bt3) :: s2.batches }
    .ok (s3,
      [ .setRewardClaimed bid true
      , .setRewardClaimedBy bid sender
      , .setRewardClaimedAt bid now
      , .mint s3 sender customerReward ])

/-- `claimCustomerReward`, state part only. -/
def claimCustomerReward (sender : Address) (now : Timestamp) (bid : BatchId)
    (s : State) : Except Err State :=
  (claimCustomerRewardTr sender now bid s).map Prod.fst

/-- `openChannel` (source lines 447–463); `hasChannelRole` is
`hasRole(CHANNEL_ROLE, ·)` of the `onlyRole` modifier. -/
def openChannel (sender : Address) (now : Timestamp)
    (hasChannelRole : Address → Bool) (cid : ChannelId)
    (participants : List Address) (s : State) : Except Err State :=
  if hasChannelRole sender = false then .error .MissingChannelRole
  else if (s.chan cid).isOpen then .error .ChannelAlreadyOpen
  else
    .ok { s with
          channels := (cid, ⟨cid, participants, 0, true, now, 0⟩) :: s.channels }

/-- `closeChannel` (source lines 468–478). -/
def closeChannel (sender : Address) (now : Timestamp)
    (hasChannelRole : Address → Bool) (cid : ChannelId) (s : State) :
    Except Err State :=
  if hasChannelRole sender = false then .error .MissingChannelRole
  else if (s.chan cid).isOpen = false then .error .ChannelNotOpen
  else
    .ok { s with
          channels :=
            (cid, { s.chan cid with isOpen := false, closedAt := now })
              :: s.channels }

/-- `getParticipantDetails` (source lines 370–391): reverts when the batch
does not exist, otherwise returns the `batchParticipants` mapping entry
(`role`, `hasVerified`, `verifiedAt`, `location`, `additionalData`). -/
def getParticipantDetails (s : State) (bid : BatchId) (a : Address) :
    Except Err (SupplyChainRole × Bool × Timestamp × String × String) :=
  if (s.batch bid).exists_ = false then .error .BatchNotFound
  else
    let p := s.bp bid a
    .ok (p.role, p.hasVerified, p.verifiedAt, p.location, p.additionalData)

/-- `isBatchReadyForCustomer` (source lines 336–341). -/
def isBatchReadyForCustomer (s : State) (bid : BatchId) : Bool :=
  (s.batch bid).exists_ && !(s.batch bid).rewardClaimed
    && ((s.batch bid).verifiedCount == (s.batch bid).totalParticipants)

/-- The per-call environment: `block.timestamp` and the OpenZeppelin role
predicates the contract consults. -/
structure Env where
  now : Timestamp
  isManufacturer : Address → Bool
  hasChannelRole : Address → Bool

/-- The contract's external state-mutating entry points, exactly as declared
`external` in `MedicineRegistry.sol`.  (`registerBatchWithSupplyChain` is
`internal`: its only caller is `settleChannel`.) -/
inductive ExtCall where
  | settleChannel (sender : Address) (cid : ChannelId)
      (batchDataList : List BatchData) (recovered : Address)
  | verifySupplyChainTransfer (sender : Address) (bid : BatchId)
      (loc extra : String) (recovered : Address)
  | claimCustomerReward (sender : Address) (bid : BatchId)
  | openChannel (sender : Address) (cid : ChannelId) (participants : List Address)
  | closeChannel (sender : Address) (cid : ChannelId)

/-- One external transaction against the contract. -/
def extStep (e : Env) (c : ExtCall) (s : State) : Except Err State :=
  match c with
  | .settleChannel sender cid l recovered =>
    settleChannel sender e.now e.isManufacturer cid l recovered s
  | .verifySupplyChainTransfer sender bid loc extra recovered =>
    verifySupplyChainTransfer sender e.now recovered bid loc extra s
  | .claimCustomerReward sender bid =>
    claimCustomerReward sender e.now bid s
  | .openChannel sender cid ps =>
    openChannel sender e.now e.hasChannelRole cid ps s
  | .closeChannel sender cid =>
    closeChannel sender e.now e.hasChannelRole cid s

/-- States reachable from deployment by any sequence of external
transactions (failed transactions revert and change nothing). -/
inductive Reachable : State → Prop where
  | init : Reachable initialState
  | step {e : Env} {c : ExtCall} {s s' : State} :
      Reachable s → extStep e c s = .ok s' → Reachable s'

/-! ## Concrete executions

Small concrete transaction sequences used by the closed theorems below.
Address `9` plays the deployer (holding `MANUFACTURER_ROLE` and
`CHANNEL_ROLE`, as the constructor grants); addresses `1`–`5` are supply
chain participants; `2` is a customer. -/

/-- Extract the post-state of a successful call (`d` on failure). -/
def okOr (x : Except Err State) (d : State) : State :=
  match x with
  | .ok s => s
  | .error _ => d

/-- Environment at `block.timestamp = 50`: address `9` holds both roles. -/
def envAt (t : Timestamp) : Env := ⟨t, fun a => a == 9, fun a => a == 9⟩

/-- Channel `77` opened by `9` with participant set `[9]`. -/
def exChanOpen : State :=
  okOr (extStep (envAt 50) (.openChannel 9 77 [9]) initialState) initialState

/-- A well-formed batch entry: id `"B1"`, expiry `100`, one participant. -/
def exData1 : BatchData := ⟨"B1", "Aspirin", "ASA", 100, [1], [.TRANSPORTER]⟩

/-- Channel `77` settled at time `50` with `[exData1]`, signed by `9`:
registers `"B1"` and closes the channel. -/
def exSettled : State :=
  okOr (extStep (envAt 50) (.settleChannel 9 77 [exData1] 9) exChanOpen) initialState

/-- Participant `1` verified `"B1"` at time `60`. -/
def exVerified : State :=
  okOr (extStep (envAt 60) (.verifySupplyChainTransfer 1 "B1" "Mumbai" "ok" 1) exSettled)
    initialState

/-- Channel `77` closed again by `closeChannel` after `exChanOpen`. -/
def exChanClosed : State :=
  okOr (extStep (envAt 60) (.closeChannel 9 77) exChanOpen) initialState

/-- A malformed fresh entry: expiry `40` is not in the future at time `50`. -/
def exDataBad : BatchData := ⟨"B4", "X", "Y", 40, [1], [.TRANSPORTER]⟩

/-- A well-formed fresh entry distinct from the others. -/
def exDataGood : BatchData := ⟨"B5", "G", "I", 100, [2], [.SUPPLIER]⟩

/-- A fresh entry with a duplicated participant address. -/
def exDataDup : BatchData := ⟨"B6", "D", "I", 100, [3, 3], [.TRANSPORTER, .SUPPLIER]⟩

/-- 21 distinct participant addresses `1..21`. -/
def ex21Addrs : List Address := (List.range 21).map (· + 1)

/-- 21 transporter roles. -/
def ex21Roles : List SupplyChainRole := List.replicate 21 .TRANSPORTER

/-- Direct registration of `"B2"` with 21 participants. -/
def ex21Reg : Except Err State :=
  registerBatchWithSupplyChain 9 50 "B2" "Drug" "Ingr" 1000 ex21Addrs ex21Roles 0
    initialState

/-! ## Association-list lemmas -/

theorem lookupD_cons {α β : Type} [DecidableEq α] (k' : α) (v : β) (m : List (α × β))
    (k : α) (d : β) :
    lookupD ((k', v) :: m) k d = if k' = k then v else lookupD m k d := rfl

theorem lookupD_append_of_not_mem {α β : Type} [DecidableEq α]
    {l1 : List (α × β)} (l2 : List (α × β)) {k : α} (d : β)
    (h : k ∉ l1.map Prod.fst) :
    lookupD (l1 ++ l2) k d = lookupD l2 k d := by
  induction l1 with
  | nil => rfl
  | cons p rest ih =>
    obtain ⟨k', v⟩ := p
    simp only [List.map_cons, List.mem_cons] at h
    push_neg at h
    rw [List.cons_append, lookupD_cons, if_neg (fun e => h.1 e.symm)]
    exact ih h.2

/-! ## The registration loop -/

/-- What a successful run of the registration loop produces: the participant
records are appended in order, the `isParticipant` mapping and the
`batchParticipants` writes accumulate (most recent first), and every
processed address was nonzero, pairwise distinct and not yet a participant. -/
theorem addParticipantsLoop_ok {bid : BatchId}
    {pairs : List (Address × SupplyChainRole)} {bt : MedicineBatch}
    {bp : List ((BatchId × Address) × SupplyChainParticipant)}
    {bt2 : MedicineBatch} {bp2 : List ((BatchId × Address) × SupplyChainParticipant)}
    (h : addParticipantsLoop bid pairs bt bp = .ok (bt2, bp2)) :
    bt2 = { bt with
            supplyChainParticipants :=
              bt.supplyChainParticipants ++ pairs.map mkParticipant
            isParticipant := (pairs.map Prod.fst).reverse ++ bt.isParticipant }
    ∧ bp2 = (pairs.map (fun pr => ((bid, pr.1), mkParticipant pr))).reverse ++ bp
    ∧ (pairs.map Prod.fst).Nodup
    ∧ (∀ a ∈ pairs.map Prod.fst, a ≠ 0 ∧ bt.isParticipant.contains a = false) := by
  induction pairs generalizing bt bp with
  | nil =>
    simp only [addParticipantsLoop, Except.ok.injEq, Prod.mk.injEq] at h
    simp [← h.1, ← h.2]
  | cons pr rest ih =>
    obtain ⟨a, r⟩ := pr
    rw [addParticipantsLoop] at h
    by_cases ha : a = 0
    · rw [if_pos ha] at h
      simp at h
    · rw [if_neg ha] at h
      by_cases hmem : a ∈ bt.isParticipant
      · rw [if_pos (by simpa using hmem)] at h
        simp at h
      · rw [if_neg (by simpa using hmem)] at h
        obtain ⟨hbt, hbp, hnd, hside⟩ := ih h
        have hcontains : bt.isParticipant.contains a = false := by simpa using hmem
        refine ⟨?_, ?_, ?_, ?_⟩
        · rw [hbt]
          simp [List.append_assoc]
        · rw [hbp]
          simp
        · simp only [List.map_cons, List.nodup_cons]
          refine ⟨?_, hnd⟩
          intro hmem2
          have h2 := (hside a hmem2).2
          simp at h2
        · intro x hx
          simp only [List.map_cons, List.mem_cons] at hx
          rcases hx with rfl | hx
          · exact ⟨ha, hcontains⟩
          · obtain ⟨hx0, hxc⟩ := hside x hx
            refine ⟨hx0, ?_⟩
            simp at hxc ⊢
            exact hxc.2

/-- The registration loop succeeds when the addresses are nonzero, pairwise
distinct and not yet participants. -/
theorem addParticipantsLoop_isOk {bid : BatchId}
    {pairs : List (Address × SupplyChainRole)} {bt : MedicineBatch}
    {bp : List ((BatchId × Address) × SupplyChainParticipant)}
    (hnd : (pairs.map Prod.fst).Nodup)
    (h0 : ∀ a ∈ pairs.map Prod.fst, a ≠ 0)
    (hfree : ∀ a ∈ pairs.map Prod.fst, bt.isParticipant.contains a = false) :
    ∃ out, addParticipantsLoop bid pairs bt bp = .ok out := by
  induction pairs generalizing bt bp with
  | nil => exact ⟨(bt, bp), rfl⟩
  | cons pr rest ih =>
    obtain ⟨a, r⟩ := pr
    have ha : a ≠ 0 := h0 a (by simp)
    have hac : bt.isParticipant.contains a = false := hfree a (by simp)
    rw [addParticipantsLoop, if_neg ha, if_neg (by simpa using hac)]
    apply ih
    · simp only [List.map_cons, List.nodup_cons] at hnd
      exact hnd.2
    · intro x hx
      exact h0 x (by simp [hx])
    · intro x hx
      have hxa : x ≠ a := by
        simp only [List.map_cons, List.nodup_cons] at hnd
        intro e
        exact hnd.1 (e ▸ hx)
      have := hfree x (by simp [hx])
      simp at this ⊢
      exact ⟨hxa, this⟩

/-- Destructing a successful `registerBatchWithSupplyChain`: all four guards
passed and the new state is the loop's output installed over `s`. -/
theorem register_ok_destruct {sender : Address} {now : Timestamp}
    {bid drug ingr : String} {expiry : Timestamp} {participants : List Address}
    {roles : List SupplyChainRole} {cid : ChannelId} {s s' : State}
    (h : registerBatchWithSupplyChain sender now bid drug ingr expiry
          participants roles cid s = .ok s') :
    (s.batch bid).exists_ = false ∧ expiry > now
    ∧ participants.length = roles.length ∧ participants.length ≠ 0
    ∧ ∃ bt2 bp2,
        addParticipantsLoop bid (participants.zip roles)
          { s.batch bid with
            manufacturer := sender, batchId := bid, drugName := drug
            ingredients := ingr, expiryDate := expiry, registeredAt := now
            channelId := cid, totalParticipants := participants.length
            verifiedCount := 0, rewardClaimed := false, exists_ := true }
          s.batchParticipants = .ok (bt2, bp2)
        ∧ s' = { s with
                 batches := (bid, bt2) :: s.batches
                 batchParticipants := bp2
                 batchParticipantsList :=
                   (bid, participants) :: s.batchParticipantsList } := by
  rw [registerBatchWithSupplyChain] at h
  split at h
  · simp at h
  · next hex =>
    split at h
    · simp at h
    · next hexp =>
      split at h
      · simp at h
      · next hlen =>
        split at h
        · simp at h
        · next hzero =>
          dsimp only at h
          split at h
          · simp at h
          · next bt2 bp2 hloop =>
            refine ⟨by simpa using hex, not_not.mp hexp, not_ne_iff.mp hlen, hzero,
              bt2, bp2, hloop, ?_⟩
            simpa using h.symm

/-- Consequences of a successful registration: the guards held, every other
batch id (and its participant mapping and channel storage) is untouched, and
the new batch record is fully characterised in terms of the old storage
slot's content. -/
theorem register_ok_facts {sender : Address} {now : Timestamp}
    {bid drug ingr : String} {expiry : Timestamp} {participants : List Address}
    {roles : List SupplyChainRole} {cid : ChannelId} {s s' : State}
    (h : registerBatchWithSupplyChain sender now bid drug ingr expiry
          participants roles cid s = .ok s') :
    (s.batch bid).exists_ = false ∧ expiry > now
    ∧ participants.length = roles.length ∧ participants.length ≠ 0
    ∧ (∀ b, b ≠ bid → s'.batch b = s.batch b)
    ∧ (∀ b a d, b ≠ bid →
        lookupD s'.batchParticipants (b, a) d = lookupD s.batchParticipants (b, a) d)
    ∧ s'.channels = s.channels
    ∧ (s'.batch bid).exists_ = true
    ∧ (s'.batch bid).verifiedCount = 0
    ∧ (s'.batch bid).totalParticipants = participants.length
    ∧ (s'.batch bid).expiryDate = expiry
    ∧ (s'.batch bid).rewardClaimed = false
    ∧ (s'.batch bid).supplyChainParticipants
        = (s.batch bid).supplyChainParticipants
            ++ (participants.zip roles).map mkParticipant
    ∧ (s'.batch bid).isParticipant
        = ((participants.zip roles).map Prod.fst).reverse ++ (s.batch bid).isParticipant
    ∧ ((participants.zip roles).map Prod.fst).Nodup
    ∧ (∀ a ∈ (participants.zip roles).map Prod.fst,
        a ≠ 0 ∧ (s.batch bid).isParticipant.contains a = false)
    ∧ (∀ a d, a ∉ participants →
        lookupD s'.batchParticipants (bid, a) d = lookupD s.batchParticipants (bid, a) d) := by
  obtain ⟨hex, hexp, hlen, hne, bt2, bp2, hloop, hs'⟩ := register_ok_destruct h
  obtain ⟨hbt, hbp, hnd, hside⟩ := addParticipantsLoop_ok hloop
  subst hs'
  have hbatch : ∀ b, State.batch
      { s with
        batches := (bid, bt2) :: s.batches
        batchParticipants := bp2
        batchParticipantsList := (bid, participants) :: s.batchParticipantsList } b
      = if bid = b then bt2 else s.batch b := by
    intro b
    rfl
  refine ⟨hex, hexp, hlen, hne, ?_, ?_, rfl, ?_, ?_, ?_, ?_, ?_, ?_, ?_, ?_, ?_, ?_⟩
  · intro b hb
    rw [hbatch b, if_neg (fun e => hb e.symm)]
  · intro b a d hb
    rw [hbp]
    apply lookupD_append_of_not_mem
    intro hmem
    simp only [List.map_reverse, List.mem_reverse, List.map_map, List.mem_map] at hmem
    obtain ⟨pr, _, hpr⟩ := hmem
    exact hb (congrArg Prod.fst hpr).symm
  · rw [hbatch bid, if_pos rfl, hbt]
  · rw [hbatch bid, if_pos rfl, hbt]
  · rw [hbatch bid, if_pos rfl, hbt]
  · rw [hbatch bid, if_pos rfl, hbt]
  · rw [hbatch bid, if_pos rfl, hbt]
  · rw [hbatch bid, if_pos rfl, hbt]
  · rw [hbatch bid, if_pos rfl, hbt]
  · exact hnd
  · exact hside
  · intro a d ha
    rw [hbp]
    apply lookupD_append_of_not_mem
    intro hmem
    simp only [List.map_reverse, List.mem_reverse, List.map_map, List.mem_map] at hmem
    obtain ⟨pr, hpr_mem, hpr⟩ := hmem
    have : pr.1 ∈ participants := (List.of_mem_zip hpr_mem).1
    have ha' : pr.1 = a := (congrArg Prod.snd hpr)
    exact ha (ha' ▸ this)

/-! ## The verification loop -/

/-- A run of the verification loop that found no matching entry returns the
array unchanged, and indeed no entry matches. -/
theorem verifyLoop_ok_false {sender : Address} {now : Timestamp} {loc extra : String}
    {parts parts2 : List SupplyChainParticipant}
    (h : verifyLoop sender now loc extra parts = .ok (parts2, false)) :
    parts2 = parts ∧ sender ∉ parts.map (·.participantAddress) := by
  induction parts generalizing parts2 with
  | nil =>
    simp only [verifyLoop, Except.ok.injEq, Prod.mk.injEq] at h
    simp [← h.1]
  | cons p rest ih =>
    rw [verifyLoop] at h
    by_cases hp : p.participantAddress = sender
    · rw [if_pos hp] at h
      by_cases hv : p.hasVerified
      · rw [if_pos hv] at h; simp at h
      · rw [if_neg hv] at h; simp at h
    · rw [if_neg hp] at h
      split at h
      · simp at h
      · next rest2 found heq =>
        simp only [Except.ok.injEq, Prod.mk.injEq] at h
        obtain ⟨h1, h2⟩ := h
        subst h2
        obtain ⟨hr, hmem⟩ := ih heq
        subst hr
        refine ⟨h1.symm, ?_⟩
        simp only [List.map_cons, List.mem_cons]
        rintro (e | e)
        · exact hp e.symm
        · exact hmem e

/-- A run of the verification loop that found the caller: the array splits at
the first matching entry, which had `hasVerified = false` and gets updated in
place. -/
theorem verifyLoop_ok_true {sender : Address} {now : Timestamp} {loc extra : String}
    {parts parts2 : List SupplyChainParticipant}
    (h : verifyLoop sender now loc extra parts = .ok (parts2, true)) :
    ∃ pre p post, parts = pre ++ p :: post
      ∧ (∀ q ∈ pre, q.participantAddress ≠ sender)
      ∧ p.participantAddress = sender ∧ p.hasVerified = false
      ∧ parts2 = pre ++
          { p with hasVerified := true, verifiedAt := now,
                   location := loc, additionalData := extra } :: post := by
  induction parts generalizing parts2 with
  | nil => simp [verifyLoop] at h
  | cons p rest ih =>
    rw [verifyLoop] at h
    by_cases hp : p.participantAddress = sender
    · rw [if_pos hp] at h
      by_cases hv : p.hasVerified
      · rw [if_pos hv] at h; simp at h
      · rw [if_neg hv] at h
        simp only [Except.ok.injEq, Prod.mk.injEq] at h
        refine ⟨[], p, rest, by simp, by simp, hp, by simpa using hv, ?_⟩
        simp [← h.1]
    · rw [if_neg hp] at h
      split at h
      · simp at h
      · next rest2 found heq =>
        simp only [Except.ok.injEq, Prod.mk.injEq] at h
        obtain ⟨h1, h2⟩ := h
        subst h2
        obtain ⟨pre, q, post, hsplit, hpre, hq, hqv, hrest2⟩ := ih heq
        refine ⟨p :: pre, q, post, by rw [hsplit]; rfl, ?_, hq, hqv, ?_⟩
        · intro x hx
          rcases List.mem_cons.mp hx with rfl | hx
          · exact hp
          · exact hpre x hx
        · rw [← h1, hrest2]
          rfl

/-- If the first matching entry for the caller has already verified, the
loop reverts with `"Already verified"`.  (With no duplicate addresses, any
verified entry of the caller is that first match.) -/
theorem verifyLoop_error_of_verified {sender : Address} {now : Timestamp}
    {loc extra : String} {parts : List SupplyChainParticipant}
    {p : SupplyChainParticipant}
    (hnd : (parts.map (·.participantAddress)).Nodup)
    (hmem : p ∈ parts) (haddr : p.participantAddress = sender)
    (hv : p.hasVerified = true) :
    verifyLoop sender now loc extra parts = .error .AlreadyVerified := by
  induction parts with
  | nil => simp at hmem
  | cons q rest ih =>
    rw [verifyLoop]
    rcases List.mem_cons.mp hmem with rfl | hmem'
    · rw [if_pos haddr, if_pos hv]
    · by_cases hq : q.participantAddress = sender
      · exfalso
        simp only [List.map_cons, List.nodup_cons] at hnd
        apply hnd.1
        rw [hq, ← haddr]
        exact List.mem_map_of_mem (·.participantAddress) hmem'
      · rw [if_neg hq]
        rw [ih (by simp only [List.map_cons, List.nodup_cons] at hnd; exact hnd.2) hmem']

/-- Reading the batch slot that was just written. -/
theorem batch_mk_cons_self {l : List (BatchId × MedicineBatch)}
    {ch : List (ChannelId × StateChannel)} {pl : List (BatchId × List Address)}
    {bp : List ((BatchId × Address) × SupplyChainParticipant)}
    {bid : BatchId} {bt : MedicineBatch} :
    State.batch ⟨(bid, bt) :: l, ch, pl, bp⟩ bid = bt := by
  show lookupD _ _ _ = _
  rw [lookupD_cons, if_pos rfl]

/-- Reading a batch slot other than the one just written. -/
theorem batch_mk_cons_ne {l : List (BatchId × MedicineBatch)}
    {ch : List (ChannelId × StateChannel)} {pl : List (BatchId × List Address)}
    {bp : List ((BatchId × Address) × SupplyChainParticipant)}
    {bid b : BatchId} {bt : MedicineBatch} (h : b ≠ bid) :
    State.batch ⟨(bid, bt) :: l, ch, pl, bp⟩ b = State.batch ⟨l, ch, pl, bp⟩ b := by
  show lookupD _ _ _ = _
  rw [lookupD_cons, if_neg (fun e => h e.symm)]
  rfl

/-- Destructing a successful `verifySupplyChainTransfer`: all four guards
passed, the loop ran on the batch's participant array, and the new state
differs from `s` only in `batches[bid]` and (when the caller was found)
`batchParticipants[bid][sender]`. -/
theorem verify_ok_destruct {sender : Address} {now : Timestamp}
    {recovered : Address} {bid : BatchId} {loc extra : String} {s s' : State}
    (h : verifySupplyChainTransfer sender now recovered bid loc extra s = .ok s') :
    (s.batch bid).exists_ = true
    ∧ (s.batch bid).isParticipant.contains sender = true
    ∧ (s.batch bid).rewardClaimed = false
    ∧ recovered = sender
    ∧ ∃ parts2 found,
        verifyLoop sender now loc extra (s.batch bid).supplyChainParticipants
          = .ok (parts2, found)
        ∧ s'.channels = s.channels
        ∧ (∀ b, b ≠ bid → s'.batch b = s.batch b)
        ∧ (∀ b a d, ¬(b = bid ∧ a = sender) →
            lookupD s'.batchParticipants (b, a) d = lookupD s.batchParticipants (b, a) d)
        ∧ s'.batch bid
            = { s.batch bid with
                supplyChainParticipants := parts2
                verifiedCount :=
                  (s.batch bid).verifiedCount + (if found then 1 else 0) } := by
  rw [verifySupplyChainTransfer] at h
  dsimp only at h
  split at h
  · simp at h
  · next hex =>
    split at h
    · simp at h
    · next hpart =>
      split at h
      · simp at h
      · next hrc =>
        split at h
        · simp at h
        · next hsig =>
          split at h
          · simp at h
          · next parts2 found hloop =>
            refine ⟨by simpa using hex, by simpa using hpart, by simpa using hrc,
              not_not.mp hsig, parts2, found, hloop, ?_⟩
            split at h
            · next hfound =>
              simp only [Except.ok.injEq] at h
              subst h
              refine ⟨rfl, ?_, ?_, ?_⟩
              · intro b hb
                exact batch_mk_cons_ne hb
              · intro b a d hba
                show lookupD (((bid, sender), _) :: s.batchParticipants) (b, a) d = _
                rw [lookupD_cons, if_neg]
                intro e
                exact hba ⟨(congrArg Prod.fst e).symm, (congrArg Prod.snd e).symm⟩
              · rw [batch_mk_cons_self]
                simp [hfound]
            · next hfound =>
              simp only [Except.ok.injEq] at h
              subst h
              refine ⟨rfl, ?_, ?_, ?_⟩
              · intro b hb
                exact batch_mk_cons_ne hb
              · intro b a d _
                rfl
              · rw [batch_mk_cons_self]
                simp [hfound]

/-- Destructing a successful `claimCustomerRewardTr`: all four guards passed,
only `batches[bid]`'s claim fields change, and the trace is exactly the three
storage writes followed by the mint, whose snapshot is the final state. -/
theorem claimTr_ok_destruct {sender : Address} {now : Timestamp} {bid : BatchId}
    {s s' : State} {tr : List ClaimEvent}
    (h : claimCustomerRewardTr sender now bid s = .ok (s', tr)) :
    (s.batch bid).exists_ = true
    ∧ (s.batch bid).rewardClaimed = false
    ∧ (s.batch bid).verifiedCount = (s.batch bid).totalParticipants
    ∧ (s.batch bid).isParticipant.contains sender = false
    ∧ s'.channels = s.channels
    ∧ s'.batchParticipants = s.batchParticipants
    ∧ (∀ b, b ≠ bid → s'.batch b = s.batch b)
    ∧ s'.batch bid
        = { s.batch bid with
            rewardClaimed := true, rewardClaimedBy := sender, rewardClaimedAt := now }
    ∧ tr = [ .setRewardClaimed bid true, .setRewardClaimedBy bid sender
           , .setRewardClaimedAt bid now, .mint s' sender customerReward ] := by
  rw [claimCustomerRewardTr] at h
  dsimp only at h
  split at h
  · simp at h
  · next hex =>
    split at h
    · simp at h
    · next hrc =>
      split at h
      · simp at h
      · next hvc =>
        split at h
        · simp at h
        · next hps =>
          simp only [Except.ok.injEq, Prod.mk.injEq] at h
          obtain ⟨hs', htr⟩ := h
          refine ⟨by simpa using hex, by simpa using hrc, not_ne_iff.mp hvc,
            by simpa using hps, ?_, ?_, ?_, ?_, ?_⟩
          · rw [← hs']
          · rw [← hs']
          · intro b hb
            rw [← hs', batch_mk_cons_ne hb, batch_mk_cons_ne hb, batch_mk_cons_ne hb]
          · rw [← hs', batch_mk_cons_self]
          · rw [← htr, ← hs']

/-- Reading the channel slot that was just written. -/
theorem chan_mk_cons_self {bl : List (BatchId × MedicineBatch)}
    {l : List (ChannelId × StateChannel)} {pl : List (BatchId × List Address)}
    {bp : List ((BatchId × Address) × SupplyChainParticipant)}
    {cid : ChannelId} {ch : StateChannel} :
    State.chan ⟨bl, (cid, ch) :: l, pl, bp⟩ cid = ch := by
  show lookupD _ _ _ = _
  rw [lookupD_cons, if_pos rfl]

/-- Reading a channel slot other than the one just written. -/
theorem chan_mk_cons_ne {bl : List (BatchId × MedicineBatch)}
    {l : List (ChannelId × StateChannel)} {pl : List (BatchId × List Address)}
    {bp : List ((BatchId × Address) × SupplyChainParticipant)}
    {cid c : ChannelId} {ch : StateChannel} (h : c ≠ cid) :
    State.chan ⟨bl, (cid, ch) :: l, pl, bp⟩ c = State.chan ⟨bl, l, pl, bp⟩ c := by
  show lookupD _ _ _ = _
  rw [lookupD_cons, if_neg (fun e => h e.symm)]
  rfl

/-- Destructing a successful `openChannel`. -/
theorem openChannel_ok_destruct {sender : Address} {now : Timestamp}
    {hasChannelRole : Address → Bool} {cid : ChannelId}
    {ps : List Address} {s s' : State}
    (h : openChannel sender now hasChannelRole cid ps s = .ok s') :
    hasChannelRole sender = true ∧ (s.chan cid).isOpen = false
    ∧ s'.batches = s.batches ∧ s'.batchParticipants = s.batchParticipants
    ∧ (∀ c, c ≠ cid → s'.chan c = s.chan c)
    ∧ s'.chan cid = ⟨cid, ps, 0, true, now, 0⟩ := by
  rw [openChannel] at h
  split at h
  · simp at h
  · next hrole =>
    split at h
    · simp at h
    · next hopen =>
      simp only [Except.ok.injEq] at h
      subst h
      refine ⟨by simpa using hrole, by simpa using hopen, rfl, rfl, ?_, chan_mk_cons_self⟩
      intro c hc
      exact chan_mk_cons_ne hc

/-- Destructing a successful `closeChannel`. -/
theorem closeChannel_ok_destruct {sender : Address} {now : Timestamp}
    {hasChannelRole : Address → Bool} {cid : ChannelId} {s s' : State}
    (h : closeChannel sender now hasChannelRole cid s = .ok s') :
    hasChannelRole sender = true ∧ (s.chan cid).isOpen = true
    ∧ s'.batches = s.batches ∧ s'.batchParticipants = s.batchParticipants
    ∧ (∀ c, c ≠ cid → s'.chan c = s.chan c)
    ∧ s'.chan cid = { s.chan cid with isOpen := false, closedAt := now } := by
  rw [closeChannel] at h
  split at h
  · simp at h
  · next hrole =>
    split at h
    · simp at h
    · next hopen =>
      simp only [Except.ok.injEq] at h
      subst h
      refine ⟨by simpa using hrole, by simpa using hopen, rfl, rfl, ?_, chan_mk_cons_self⟩
      intro c hc
      exact chan_mk_cons_ne hc

/-- The settlement loop never touches channel storage. -/
theorem settleLoop_channels {sender : Address} {now : Timestamp} {cid : ChannelId}
    {l : List BatchData} {s s1 : State}
    (h : settleLoop sender now cid l s = .ok s1) : s1.channels = s.channels := by
  induction l generalizing s with
  | nil =>
    simp only [settleLoop, Except.ok.injEq] at h
    rw [← h]
  | cons d rest ih =>
    rw [settleLoop] at h
    split at h
    · exact ih h
    · split at h
      · simp at h
      · next s2 hreg =>
        rw [ih h]
        exact (register_ok_facts hreg).2.2.2.2.2.2.1

/-- Destructing a successful `settleChannel`: the channel was open, the
signer authorized, the loop succeeded, and the channel is then closed with
its nonce bumped once. -/
theorem settle_ok_destruct {sender : Address} {now : Timestamp}
    {isManufacturer : Address → Bool} {cid : ChannelId}
    {l : List BatchData} {recovered : Address} {s s' : State}
    (h : settleChannel sender now isManufacturer cid l recovered s = .ok s') :
    (s.chan cid).isOpen = true
    ∧ isChannelParticipant s cid recovered = true
    ∧ isManufacturer recovered = true
    ∧ ∃ s1, settleLoop sender now cid l s = .ok s1
        ∧ s'.batches = s1.batches
        ∧ s'.batchParticipants = s1.batchParticipants
        ∧ (∀ c, c ≠ cid → s'.chan c = s1.chan c)
        ∧ s'.chan cid
            = { s1.chan cid with
                isOpen := false, closedAt := now, nonce := (s1.chan cid).nonce + 1 } := by
  rw [settleChannel] at h
  split at h
  · simp at h
  · next hopen =>
    split at h
    · simp at h
    · next hsigner =>
      split at h
      · simp at h
      · next hman =>
        split at h
        · simp at h
        · next s1 hloop =>
          simp only [Except.ok.injEq] at h
          subst h
          refine ⟨by simpa using hopen, by simpa using hsigner, by simpa using hman,
            s1, hloop, rfl, rfl, ?_, chan_mk_cons_self⟩
          intro c hc
          exact chan_mk_cons_ne hc

/-! ## The state invariant -/

/-- Well-formedness of an existing batch record: `totalParticipants` is the
array length, participant addresses are pairwise distinct, `verifiedCount`
counts the entries with `hasVerified`, and the `isParticipant` mapping is the
membership predicate of the array. -/
structure BatchOk (bt : MedicineBatch) : Prop where
  total_eq : bt.totalParticipants = bt.supplyChainParticipants.length
  addr_nodup : (bt.supplyChainParticipants.map (·.participantAddress)).Nodup
  count_eq : bt.verifiedCount
      = (bt.supplyChainParticipants.filter (·.hasVerified)).length
  mem_iff : ∀ a, bt.isParticipant.contains a = true
      ↔ a ∈ bt.supplyChainParticipants.map (·.participantAddress)

/-- The inductive invariant of the contract's storage. -/
structure StateOk (s : State) : Prop where
  fresh : ∀ b, (s.batch b).exists_ = false → s.batch b = defaultBatch
  freshBp : ∀ b a, (s.batch b).exists_ = false → s.bp b a = defaultParticipant
  ok : ∀ b, (s.batch b).exists_ = true → BatchOk (s.batch b)
  bpDefault : ∀ b a, (s.batch b).isParticipant.contains a = false
      → s.bp b a = defaultParticipant

theorem stateOk_init : StateOk initialState := by
  constructor
  · intro b _; rfl
  · intro b a _; rfl
  · intro b hb; simp [initialState, State.batch, lookupD, defaultBatch] at hb
  · intro b a _; rfl

/-- Transferring the invariant along equal batch and participant storage. -/
theorem stateOk_of_same {s s' : State} (h1 : s'.batches = s.batches)
    (h2 : s'.batchParticipants = s.batchParticipants) (hs : StateOk s) :
    StateOk s' := by
  have hb : ∀ b, s'.batch b = s.batch b := by
    intro b
    show lookupD s'.batches b defaultBatch = lookupD s.batches b defaultBatch
    rw [h1]
  have hp : ∀ b a, s'.bp b a = s.bp b a := by
    intro b a
    show lookupD s'.batchParticipants (b, a) defaultParticipant
        = lookupD s.batchParticipants (b, a) defaultParticipant
    rw [h2]
  constructor
  · intro b he
    rw [hb] at he ⊢
    exact hs.fresh b he
  · intro b a he
    rw [hb] at he
    rw [hp]
    exact hs.freshBp b a he
  · intro b he
    rw [hb] at he ⊢
    exact hs.ok b he
  · intro b a hc
    rw [hb] at hc
    rw [hp]
    exact hs.bpDefault b a hc

/-- A successful registration preserves the storage invariant. -/
theorem register_preserves_ok {sender : Address} {now : Timestamp}
    {bid drug ingr : String} {expiry : Timestamp} {participants : List Address}
    {roles : List SupplyChainRole} {cid : ChannelId} {s s' : State}
    (hs : StateOk s)
    (h : registerBatchWithSupplyChain sender now bid drug ingr expiry
          participants roles cid s = .ok s') : StateOk s' := by
  obtain ⟨hex, hexp, hlen, hne, hframe, hbpframe, hch, hex', hvc', htp', hed', hrc',
    hparts', hip', hnd, hside, hbpfresh⟩ := register_ok_facts h
  have hdef : s.batch bid = defaultBatch := hs.fresh bid hex
  have hzfst : (participants.zip roles).map Prod.fst = participants :=
    List.map_fst_zip participants roles (le_of_eq hlen)
  have haddrs : (s'.batch bid).supplyChainParticipants.map (·.participantAddress)
      = participants := by
    rw [hparts', hdef]
    simp only [defaultBatch, List.nil_append, List.map_map]
    rw [show ((·.participantAddress) ∘ mkParticipant)
        = (Prod.fst : Address × SupplyChainRole → Address) from rfl]
    exact hzfst
  constructor
  · intro b hb
    by_cases hbid : b = bid
    · subst hbid
      rw [hex'] at hb
      simp at hb
    · rw [hframe b hbid] at hb ⊢
      exact hs.fresh b hb
  · intro b a hb
    by_cases hbid : b = bid
    · subst hbid
      rw [hex'] at hb
      simp at hb
    · show lookupD s'.batchParticipants (b, a) defaultParticipant = _
      rw [hbpframe b a defaultParticipant hbid]
      rw [hframe b hbid] at hb
      exact hs.freshBp b a hb
  · intro b hb
    by_cases hbid : b = bid
    · subst hbid
      constructor
      · rw [htp', hparts', hdef]
        simp only [defaultBatch, List.nil_append, List.length_map]
        rw [List.length_zip, hlen, Nat.min_self]
      · rw [haddrs]
        rw [hzfst] at hnd
        exact hnd
      · rw [hvc', hparts', hdef]
        simp only [defaultBatch, List.nil_append]
        have : ((participants.zip roles).map mkParticipant).filter (·.hasVerified)
            = [] := by
          rw [List.filter_eq_nil_iff]
          intro x hx
          obtain ⟨pr, _, hpr⟩ := List.mem_map.mp hx
          rw [← hpr]
          simp [mkParticipant]
        rw [this]
        rfl
      · intro a
        rw [haddrs, hip', hdef]
        simp only [defaultBatch, List.append_nil]
        rw [hzfst]
        simp
    · rw [hframe b hbid] at hb ⊢
      exact hs.ok b hb
  · intro b a hc
    by_cases hbid : b = bid
    · subst hbid
      rw [hip', hdef] at hc
      simp only [defaultBatch, List.append_nil] at hc
      rw [hzfst] at hc
      have ha : a ∉ participants := by simpa using hc
      show lookupD s'.batchParticipants (b, a) defaultParticipant = _
      rw [hbpfresh a defaultParticipant ha]
      exact hs.freshBp b a hex
    · show lookupD s'.batchParticipants (b, a) defaultParticipant = _
      rw [hbpframe b a defaultParticipant hbid]
      rw [hframe b hbid] at hc
      exact hs.bpDefault b a hc

/-- A successful verification preserves the storage invariant. -/
theorem verify_preserves_ok {sender : Address} {now : Timestamp}
    {recovered : Address} {bid : BatchId} {loc extra : String} {s s' : State}
    (hs : StateOk s)
    (h : verifySupplyChainTransfer sender now recovered bid loc extra s = .ok s') :
    StateOk s' := by
  obtain ⟨hex, hpart, hrc, _, parts2, found, hloop, hch, hframe, hbpframe, hbid⟩ :=
    verify_ok_destruct h
  have hexists' : (s'.batch bid).exists_ = true := by rw [hbid]; exact hex
  have hip' : (s'.batch bid).isParticipant = (s.batch bid).isParticipant := by
    rw [hbid]
  have hok := hs.ok bid hex
  constructor
  · intro b hb
    by_cases hbid2 : b = bid
    · subst hbid2
      rw [hexists'] at hb
      simp at hb
    · rw [hframe b hbid2] at hb ⊢
      exact hs.fresh b hb
  · intro b a hb
    by_cases hbid2 : b = bid
    · subst hbid2
      rw [hexists'] at hb
      simp at hb
    · show lookupD s'.batchParticipants (b, a) defaultParticipant = _
      rw [hbpframe b a defaultParticipant (fun e => hbid2 e.1)]
      rw [hframe b hbid2] at hb
      exact hs.freshBp b a hb
  · intro b hb
    by_cases hbid2 : b = bid
    · subst hbid2
      cases found with
      | false =>
        obtain ⟨hp2, _⟩ := verifyLoop_ok_false hloop
        subst hp2
        constructor
        · rw [hbid]
          exact hok.total_eq
        · rw [hbid]
          exact hok.addr_nodup
        · rw [hbid]
          exact hok.count_eq
        · intro a
          rw [hbid]
          exact hok.mem_iff a
      | true =>
        obtain ⟨pre, p, post, hsplit, hpre, hpaddr, hpv, hp2⟩ := verifyLoop_ok_true hloop
        have haddr2 : parts2.map (·.participantAddress)
            = (s.batch b).supplyChainParticipants.map (·.participantAddress) := by
          rw [hp2, hsplit]
          simp
        have hlen2 : parts2.length = (s.batch b).supplyChainParticipants.length := by
          rw [hp2, hsplit]
          simp
        have hfil2 : (parts2.filter (·.hasVerified)).length
            = ((s.batch b).supplyChainParticipants.filter (·.hasVerified)).length
              + 1 := by
          rw [hp2, hsplit]
          simp only [List.filter_append, List.filter_cons, hpv]
          simp [List.length_append]
          omega
        constructor
        · rw [hbid]
          simp [hlen2, hok.total_eq]
        · rw [hbid]
          simpa [haddr2] using hok.addr_nodup
        · rw [hbid]
          simp [hfil2, hok.count_eq]
        · intro a
          rw [hbid]
          simpa [haddr2] using hok.mem_iff a
    · rw [hframe b hbid2] at hb ⊢
      exact hs.ok b hb
  · intro b a hc
    by_cases hbid2 : b = bid
    · subst hbid2
      rw [hip'] at hc
      have hasender : a ≠ sender := by
        intro e
        rw [e, hpart] at hc
        simp at hc
      show lookupD s'.batchParticipants (b, a) defaultParticipant = _
      rw [hbpframe b a defaultParticipant (fun pr => hasender pr.2)]
      exact hs.bpDefault b a hc
    · show lookupD s'.batchParticipants (b, a) defaultParticipant = _
      rw [hbpframe b a defaultParticipant (fun e => hbid2 e.1)]
      rw [hframe b hbid2] at hc
      exact hs.bpDefault b a hc

/-- A successful reward claim preserves the storage invariant. -/
theorem claim_preserves_ok {sender : Address} {now : Timestamp} {bid : BatchId}
    {s s' : State} (hs : StateOk s)
    (h : claimCustomerReward sender now bid s = .ok s') : StateOk s' := by
  rw [claimCustomerReward] at h
  cases htr : claimCustomerRewardTr sender now bid s with
  | error e => rw [htr] at h; simp [Except.map] at h
  | ok out =>
    rw [htr] at h
    simp only [Except.map] at h
    obtain ⟨s2, tr⟩ := out
    simp only [Except.ok.injEq] at h
    subst h
    obtain ⟨hex, hrc, hvc, hps, hch, hbp, hframe, hbid, _⟩ := claimTr_ok_destruct htr
    have hexists' : (s2.batch bid).exists_ = true := by rw [hbid]; exact hex
    have hok := hs.ok bid hex
    constructor
    · intro b hb
      by_cases hbid2 : b = bid
      · subst hbid2
        rw [hexists'] at hb
        simp at hb
      · rw [hframe b hbid2] at hb ⊢
        exact hs.fresh b hb
    · intro b a hb
      by_cases hbid2 : b = bid
      · subst hbid2
        rw [hexists'] at hb
        simp at hb
      · show lookupD s2.batchParticipants (b, a) defaultParticipant = _
        rw [hbp]
        rw [hframe b hbid2] at hb
        exact hs.freshBp b a hb
    · intro b hb
      by_cases hbid2 : b = bid
      · subst hbid2
        constructor
        · rw [hbid]; exact hok.total_eq
        · rw [hbid]; exact hok.addr_nodup
        · rw [hbid]; exact hok.count_eq
        · intro a; rw [hbid]; exact hok.mem_iff a
      · rw [hframe b hbid2] at hb ⊢
        exact hs.ok b hb
    · intro b a hc
      by_cases hbid2 : b = bid
      · subst hbid2
        rw [hbid] at hc
        show lookupD s2.batchParticipants (b, a) defaultParticipant = _
        rw [hbp]
        exact hs.bpDefault b a hc
      · show lookupD s2.batchParticipants (b, a) defaultParticipant = _
        rw [hbp]
        rw [hframe b hbid2] at hc
        exact hs.bpDefault b a hc

/-- The settlement loop preserves the storage invariant. -/
theorem settleLoop_preserves_ok {sender : Address} {now : Timestamp}
    {cid : ChannelId} {l : List BatchData} {s s1 : State} (hs : StateOk s)
    (h : settleLoop sender now cid l s = .ok s1) : StateOk s1 := by
  induction l generalizing s with
  | nil =>
    simp only [settleLoop, Except.ok.injEq] at h
    rw [← h]
    exact hs
  | cons d rest ih =>
    rw [settleLoop] at h
    split at h
    · exact ih hs h
    · split at h
      · simp at h
      · next s2 hreg =>
        exact ih (register_preserves_ok hs hreg) h

/-- Every external transaction preserves the storage invariant. -/
theorem extStep_preserves_ok {e : Env} {c : ExtCall} {s s' : State}
    (hs : StateOk s) (h : extStep e c s = .ok s') : StateOk s' := by
  cases c with
  | settleChannel sender cid l recovered =>
    obtain ⟨_, _, _, s1, hloop, hb, hbp, _, _⟩ := settle_ok_destruct h
    exact stateOk_of_same hb hbp (settleLoop_preserves_ok hs hloop)
  | verifySupplyChainTransfer sender bid loc extra recovered =>
    exact verify_preserves_ok hs h
  | claimCustomerReward sender bid =>
    exact claim_preserves_ok hs h
  | openChannel sender cid ps =>
    obtain ⟨_, _, hb, hbp, _, _⟩ := openChannel_ok_destruct h
    exact stateOk_of_same hb hbp hs
  | closeChannel sender cid =>
    obtain ⟨_, _, hb, hbp, _, _⟩ := closeChannel_ok_destruct h
    exact stateOk_of_same hb hbp hs

/-- Every reachable state satisfies the storage invariant. -/
theorem reachable_stateOk {s : State} (h : Reachable s) : StateOk s := by
  induction h with
  | init => exact stateOk_init
  | step _ hstep ih => exact extStep_preserves_ok ih hstep

/-! ## verifiedCount accounting -/

/-- Equal batch storage gives equal batch reads. -/
theorem batch_eq_of_batches_eq {s s' : State} (h : s'.batches = s.batches)
    (b : BatchId) : s'.batch b = s.batch b := by
  show lookupD s'.batches b defaultBatch = lookupD s.batches b defaultBatch
  rw [h]

/-- Equal channel storage gives equal channel reads. -/
theorem chan_eq_of_channels_eq {s s' : State} (h : s'.channels = s.channels)
    (c : ChannelId) : s'.chan c = s.chan c := by
  show lookupD s'.channels c defaultChannel = lookupD s.channels c defaultChannel
  rw [h]

/-- A registration never changes any batch's `verifiedCount` (the registered
batch was a fresh zero-initialised slot and is created with count `0`). -/
theorem register_count_eq {sender : Address} {now : Timestamp}
    {bid drug ingr : String} {expiry : Timestamp} {participants : List Address}
    {roles : List SupplyChainRole} {cid : ChannelId} {s s' : State}
    (hs : StateOk s)
    (h : registerBatchWithSupplyChain sender now bid drug ingr expiry
          participants roles cid s = .ok s') (b : BatchId) :
    (s'.batch b).verifiedCount = (s.batch b).verifiedCount := by
  obtain ⟨hex, _, _, _, hframe, _, _, _, hvc', _⟩ := register_ok_facts h
  by_cases hbid : b = bid
  · subst hbid
    rw [hvc', hs.fresh b hex]
    rfl
  · rw [hframe b hbid]

/-- The settlement loop never changes any batch's `verifiedCount`. -/
theorem settleLoop_count_eq {sender : Address} {now : Timestamp} {cid : ChannelId}
    {l : List BatchData} {s s1 : State} (hs : StateOk s)
    (h : settleLoop sender now cid l s = .ok s1) (b : BatchId) :
    (s1.batch b).verifiedCount = (s.batch b).verifiedCount := by
  induction l generalizing s with
  | nil =>
    simp only [settleLoop, Except.ok.injEq] at h
    rw [← h]
  | cons d rest ih =>
    rw [settleLoop] at h
    split at h
    · exact ih hs h
    · split at h
      · simp at h
      · next s2 hreg =>
        rw [ih (register_preserves_ok hs hreg) h, register_count_eq hs hreg b]

/-- Per-transaction accounting: `verifiedCount` never decreases and grows by
at most one in any single external transaction. -/
theorem extStep_count {e : Env} {c : ExtCall} {s s' : State}
    (hs : StateOk s) (h : extStep e c s = .ok s') (b : BatchId) :
    (s.batch b).verifiedCount ≤ (s'.batch b).verifiedCount
    ∧ (s'.batch b).verifiedCount ≤ (s.batch b).verifiedCount + 1 := by
  cases c with
  | settleChannel sender cid l recovered =>
    obtain ⟨_, _, _, s1, hloop, hb, _, _, _⟩ := settle_ok_destruct h
    rw [batch_eq_of_batches_eq hb b, settleLoop_count_eq hs hloop b]
    omega
  | verifySupplyChainTransfer sender bid loc extra recovered =>
    obtain ⟨_, _, _, _, parts2, found, _, _, hframe, _, hbid⟩ := verify_ok_destruct h
    by_cases hbid2 : b = bid
    · subst hbid2
      rw [hbid]
      cases found <;> simp
    · rw [hframe b hbid2]
      omega
  | claimCustomerReward sender bid =>
    replace h : claimCustomerReward sender e.now bid s = .ok s' := h
    rw [claimCustomerReward] at h
    cases htr : claimCustomerRewardTr sender e.now bid s with
    | error er => rw [htr] at h; simp [Except.map] at h
    | ok out =>
      rw [htr] at h
      simp only [Except.map] at h
      obtain ⟨s2, tr⟩ := out
      simp only [Except.ok.injEq] at h
      subst h
      obtain ⟨_, _, _, _, _, _, hframe, hbid, _⟩ := claimTr_ok_destruct htr
      by_cases hbid2 : b = bid
      · subst hbid2
        rw [hbid]
        simp
      · rw [hframe b hbid2]
        omega
  | openChannel sender cid ps =>
    obtain ⟨_, _, hb, _, _, _⟩ := openChannel_ok_destruct h
    rw [batch_eq_of_batches_eq hb b]
    omega
  | closeChannel sender cid =>
    obtain ⟨_, _, hb, _, _, _⟩ := closeChannel_ok_destruct h
    rw [batch_eq_of_batches_eq hb b]
    omega

/-- A participant entry that has already verified makes any further
verification attempt by that participant revert (the guards or the loop's
`"Already verified"` check stop it): the call never succeeds. -/
theorem verify_fails_of_verified {s : State} (hs : StateOk s) {b : BatchId}
    {p : SupplyChainParticipant}
    (hp : p ∈ (s.batch b).supplyChainParticipants) (hv : p.hasVerified = true)
    (now : Timestamp) (recovered : Address) (loc extra : String) (s' : State) :
    verifySupplyChainTransfer p.participantAddress now recovered b loc extra s
      ≠ .ok s' := by
  intro h
  obtain ⟨hex, _, _, _, parts2, found, hloop, _⟩ := verify_ok_destruct h
  rw [verifyLoop_error_of_verified (hs.ok b hex).addr_nodup hp rfl hv] at hloop
  simp at hloop

/-! ## Settlement: success and failure analysis -/

/-- A `BatchData` entry that satisfies every registration precondition other
than freshness of its id. -/
def validBatchData (now : Timestamp) (d : BatchData) : Prop :=
  d.expiryDate > now
  ∧ d.supplyChainAddresses ≠ []
  ∧ d.supplyChainAddresses.length = d.supplyChainRoles.length
  ∧ d.supplyChainAddresses.Nodup
  ∧ 0 ∉ d.supplyChainAddresses

/-- Registration of a fresh id with valid data succeeds (in an invariant
state, where a fresh slot is zero-initialised). -/
theorem register_succeeds {sender : Address} {now : Timestamp}
    {bid drug ingr : String} {expiry : Timestamp} {participants : List Address}
    {roles : List SupplyChainRole} {cid : ChannelId} {s : State}
    (hs : StateOk s) (hfresh : (s.batch bid).exists_ = false)
    (hexp : expiry > now) (hnil : participants ≠ [])
    (hlen : participants.length = roles.length)
    (hnd : participants.Nodup) (h0 : 0 ∉ participants) :
    ∃ s', registerBatchWithSupplyChain sender now bid drug ingr expiry
        participants roles cid s = .ok s' := by
  have hzfst : (participants.zip roles).map Prod.fst = participants :=
    List.map_fst_zip participants roles (le_of_eq hlen)
  have hdef : s.batch bid = defaultBatch := hs.fresh bid hfresh
  obtain ⟨⟨bt2, bp2⟩, hloop⟩ := @addParticipantsLoop_isOk bid
    (participants.zip roles)
    { s.batch bid with
      manufacturer := sender, batchId := bid, drugName := drug
      ingredients := ingr, expiryDate := expiry, registeredAt := now
      channelId := cid, totalParticipants := participants.length
      verifiedCount := 0, rewardClaimed := false, exists_ := true }
    s.batchParticipants
    (by rw [hzfst]; exact hnd)
    (by rw [hzfst]; intro a ha e; exact h0 (e ▸ ha))
    (by
      rw [hzfst]
      intro a _
      show (s.batch bid).isParticipant.contains a = false
      rw [hdef]
      rfl)
  refine ⟨{ s with
            batches := (bid, bt2) :: s.batches
            batchParticipants := bp2
            batchParticipantsList := (bid, participants) :: s.batchParticipantsList },
    ?_⟩
  rw [registerBatchWithSupplyChain, if_neg (by simp [hfresh]),
    if_neg (by simpa using hexp), if_neg (by simp [hlen]),
    if_neg (by simp [hnil])]
  dsimp only
  rw [hloop]

/-- What the settlement loop does when every entry's data is valid: it
succeeds, leaves every already-present batch record unchanged, and registers
exactly the fresh ids of the list. -/
theorem settleLoop_registers {sender : Address} {now : Timestamp}
    {cid : ChannelId} {l : List BatchData} {s : State} (hs : StateOk s)
    (hvalid : ∀ d ∈ l, validBatchData now d) :
    ∃ s1, settleLoop sender now cid l s = .ok s1
      ∧ (∀ b, (s.batch b).exists_ = true → s1.batch b = s.batch b)
      ∧ (∀ b, (s.batch b).exists_ = false →
          ((s1.batch b).exists_ = true ↔ b ∈ l.map BatchData.batchId)) := by
  induction l generalizing s with
  | nil =>
    refine ⟨s, rfl, fun b _ => rfl, fun b hb => ?_⟩
    simp [hb]
  | cons d rest ih =>
    by_cases hex : (s.batch d.batchId).exists_ = true
    · obtain ⟨s1, hloop, hkeep, hiff⟩ := ih hs (fun x hx => hvalid x (by simp [hx]))
      refine ⟨s1, ?_, hkeep, ?_⟩
      · rw [settleLoop, if_pos hex]
        exact hloop
      · intro b hb
        have hne : b ≠ d.batchId := by
          intro e
          rw [e, hex] at hb
          simp at hb
        rw [hiff b hb]
        simp [hne]
    · have hfresh : (s.batch d.batchId).exists_ = false := by
        cases hx : (s.batch d.batchId).exists_
        · rfl
        · exact absurd hx hex
      obtain ⟨hexp, hnil, hlen, hnd, h0⟩ := hvalid d (by simp)
      obtain ⟨s2, hreg⟩ := @register_succeeds sender now d.batchId d.drugName
        d.ingredients d.expiryDate d.supplyChainAddresses d.supplyChainRoles
        cid s hs hfresh hexp hnil hlen hnd h0
      obtain ⟨_, _, _, _, hframe, _, _, hex2, _⟩ := register_ok_facts hreg
      obtain ⟨s1, hloop, hkeep, hiff⟩ :=
        ih (register_preserves_ok hs hreg) (fun x hx => hvalid x (by simp [hx]))
      refine ⟨s1, ?_, ?_, ?_⟩
      · rw [settleLoop, if_neg (by simp [hfresh]), hreg]
        exact hloop
      · intro b hb
        have hne : b ≠ d.batchId := by
          intro e
          rw [e, hfresh] at hb
          simp at hb
        rw [hkeep b (by rw [hframe b hne]; exact hb), hframe b hne]
      · intro b hb
        by_cases hbd : b = d.batchId
        · subst hbd
          rw [hkeep d.batchId hex2, hex2]
          simp
        · have hb2 : (s2.batch b).exists_ = false := by
            rw [hframe b hbd]
            exact hb
          rw [hiff b hb2]
          simp [hbd]

/-- Building a successful settlement from its parts. -/
theorem settle_ok_build {sender : Address} {now : Timestamp}
    {isManufacturer : Address → Bool} {cid : ChannelId} {l : List BatchData}
    {recovered : Address} {s s1 : State}
    (hopen : (s.chan cid).isOpen = true)
    (hsig : isChannelParticipant s cid recovered = true)
    (hman : isManufacturer recovered = true)
    (hloop : settleLoop sender now cid l s = .ok s1) :
    settleChannel sender now isManufacturer cid l recovered s
      = .ok { s1 with
              channels :=
                (cid, { s1.chan cid with
                        isOpen := false, closedAt := now
                        nonce := (s1.chan cid).nonce + 1 }) :: s1.channels } := by
  rw [settleChannel, if_neg (by simp [hopen]), if_neg (by simp [hsig]),
    if_neg (by simp [hman]), hloop]

/-- Settling a channel that is not open reverts with `"Channel not open"`,
whatever the payload. -/
theorem settle_closed {sender : Address} {now : Timestamp}
    {isManufacturer : Address → Bool} {cid : ChannelId} {l : List BatchData}
    {recovered : Address} {s : State}
    (hclosed : (s.chan cid).isOpen = false) :
    settleChannel sender now isManufacturer cid l recovered s
      = .error .ChannelNotOpen := by
  rw [settleChannel, if_pos hclosed]

/-- A fresh id whose data has a non-future expiry makes registration revert
with `"Expiry date must be in future"`. -/
theorem register_error_expiry {sender : Address} {now : Timestamp}
    {bid drug ingr : String} {expiry : Timestamp} {participants : List Address}
    {roles : List SupplyChainRole} {cid : ChannelId} {s : State}
    (hfresh : (s.batch bid).exists_ = false) (hbad : ¬ expiry > now) :
    registerBatchWithSupplyChain sender now bid drug ingr expiry
      participants roles cid s = .error .ExpiryNotFuture := by
  rw [registerBatchWithSupplyChain, if_neg (by simp [hfresh]), if_pos hbad]

/-- If the list contains an entry with a fresh, unshared id and a non-future
expiry, the settlement loop cannot succeed: the whole settlement reverts. -/
theorem settleLoop_fails {sender : Address} {now : Timestamp} {cid : ChannelId}
    {l : List BatchData} {s : State} {d : BatchData}
    (hmem : d ∈ l) (hbad : ¬ d.expiryDate > now)
    (hfresh : (s.batch d.batchId).exists_ = false)
    (huniq : ∀ d' ∈ l, d'.batchId = d.batchId → d' = d) :
    ∀ s1, settleLoop sender now cid l s ≠ .ok s1 := by
  induction l generalizing s with
  | nil => simp at hmem
  | cons h0 rest ih =>
    intro s1 hok
    rw [settleLoop] at hok
    rcases List.mem_cons.mp hmem with rfl | hmem'
    · rw [if_neg (by simp [hfresh]), register_error_expiry hfresh hbad] at hok
      simp at hok
    · by_cases hh : h0 = d
      · subst hh
        rw [if_neg (by simp [hfresh]), register_error_expiry hfresh hbad] at hok
        simp at hok
      · have hhne : h0.batchId ≠ d.batchId := by
          intro e
          exact hh (huniq h0 (by simp) e)
        split at hok
        · exact ih hmem' hfresh
            (fun d' hd' e => huniq d' (by simp [hd']) e) s1 hok
        · split at hok
          · simp at hok
          · next s2 hreg =>
            obtain ⟨_, _, _, _, hframe, _⟩ := register_ok_facts hreg
            exact ih hmem' (by rw [hframe d.batchId (Ne.symm hhne)]; exact hfresh)
              (fun d' hd' e => huniq d' (by simp [hd']) e) s1 hok

/-! ## Verification guard analysis -/

/-- A caller the `isParticipant` mapping does not list reverts with
`"Not authorized participant"`. -/
theorem verify_error_notAuthorized {sender : Address} {now : Timestamp}
    {recovered : Address} {bid : BatchId} {loc extra : String} {s : State}
    (hex : (s.batch bid).exists_ = true)
    (hc : (s.batch bid).isParticipant.contains sender = false) :
    verifySupplyChainTransfer sender now recovered bid loc extra s
      = .error .NotAuthorizedParticipant := by
  rw [verifySupplyChainTransfer]
  dsimp only
  rw [if_neg (by simp [hex]), if_pos hc]

/-- A listed participant verifying a batch whose reward is already claimed
reverts with `"Batch already completed"`. -/
theorem verify_error_completed {sender : Address} {now : Timestamp}
    {recovered : Address} {bid : BatchId} {loc extra : String} {s : State}
    (hex : (s.batch bid).exists_ = true)
    (hc : (s.batch bid).isParticipant.contains sender = true)
    (hrc : (s.batch bid).rewardClaimed = true) :
    verifySupplyChainTransfer sender now recovered bid loc extra s
      = .error .BatchAlreadyCompleted := by
  rw [verifySupplyChainTransfer]
  dsimp only
  rw [if_neg (by simp [hex]), if_neg (by simpa using hc), if_pos hrc]

/-- A listed participant that has already verified, re-verifying with a valid
signature on an uncompleted batch, reverts with `"Already verified"`. -/
theorem verify_error_alreadyVerified {now : Timestamp} {bid : BatchId}
    {loc extra : String} {s : State} (hs : StateOk s)
    (hex : (s.batch bid).exists_ = true)
    (hrc : (s.batch bid).rewardClaimed = false)
    {p : SupplyChainParticipant}
    (hp : p ∈ (s.batch bid).supplyChainParticipants)
    (hv : p.hasVerified = true) :
    verifySupplyChainTransfer p.participantAddress now p.participantAddress
        bid loc extra s = .error .AlreadyVerified := by
  have hc : (s.batch bid).isParticipant.contains p.participantAddress = true :=
    ((hs.ok bid hex).mem_iff p.participantAddress).mpr
      (List.mem_map_of_mem (·.participantAddress) hp)
  rw [verifySupplyChainTransfer]
  dsimp only
  rw [if_neg (by simp [hex]), if_neg (by simpa using hc), if_neg (by simp [hrc]),
    if_neg (by simp),
    verifyLoop_error_of_verified (hs.ok bid hex).addr_nodup hp rfl hv]

/-! ## Channel transition analysis -/

/-- The only external transaction that turns a channel id from closed to
open is `openChannel` on that very id. -/
theorem chan_open_only_by_openChannel {e : Env} {c : ExtCall} {s s' : State}
    {cid : ChannelId} (h : extStep e c s = .ok s')
    (hclosed : (s.chan cid).isOpen = false)
    (hopen' : (s'.chan cid).isOpen = true) :
    ∃ sender ps, c = ExtCall.openChannel sender cid ps := by
  cases c with
  | settleChannel sender cid0 l recovered =>
    exfalso
    obtain ⟨_, _, _, s1, hloop, _, _, hframe, hcid0⟩ := settle_ok_destruct h
    by_cases hc : cid = cid0
    · subst hc
      rw [hcid0] at hopen'
      simp at hopen'
    · rw [hframe cid hc,
        chan_eq_of_channels_eq (settleLoop_channels hloop) cid, hclosed] at hopen'
      simp at hopen'
  | verifySupplyChainTransfer sender bid loc extra recovered =>
    exfalso
    obtain ⟨_, _, _, _, _, _, _, hch, _⟩ := verify_ok_destruct h
    rw [chan_eq_of_channels_eq hch cid, hclosed] at hopen'
    simp at hopen'
  | claimCustomerReward sender bid =>
    exfalso
    replace h : claimCustomerReward sender e.now bid s = .ok s' := h
    rw [claimCustomerReward] at h
    cases htr : claimCustomerRewardTr sender e.now bid s with
    | error er => rw [htr] at h; simp [Except.map] at h
    | ok out =>
      rw [htr] at h
      simp only [Except.map] at h
      obtain ⟨s2, tr⟩ := out
      simp only [Except.ok.injEq] at h
      subst h
      obtain ⟨_, _, _, _, hch, _⟩ := claimTr_ok_destruct htr
      rw [chan_eq_of_channels_eq hch cid, hclosed] at hopen'
      simp at hopen'
  | openChannel sender cid0 ps =>
    by_cases hc : cid = cid0
    · subst hc
      exact ⟨sender, ps, rfl⟩
    · exfalso
      obtain ⟨_, _, _, _, hframe, _⟩ := openChannel_ok_destruct h
      rw [hframe cid hc, hclosed] at hopen'
      simp at hopen'
  | closeChannel sender cid0 =>
    exfalso
    obtain ⟨_, _, _, _, hframe, hcid0⟩ := closeChannel_ok_destruct h
    by_cases hc : cid = cid0
    · subst hc
      rw [hcid0] at hopen'
      simp at hopen'
    · rw [hframe cid hc, hclosed] at hopen'
      simp at hopen'

/-- `openChannel` requires only that the channel id is not *currently* open:
with the channel role, it succeeds on any closed (including previously
settled) channel id and makes it open again. -/
theorem openChannel_reopens {sender : Address} {now : Timestamp}
    {hasChannelRole : Address → Bool} {cid : ChannelId} {ps : List Address}
    {s : State} (hrole : hasChannelRole sender = true)
    (hclosed : (s.chan cid).isOpen = false) :
    ∃ s', openChannel sender now hasChannelRole cid ps s = .ok s'
      ∧ (s'.chan cid).isOpen = true := by
  refine ⟨{ s with channels := (cid, ⟨cid, ps, 0, true, now, 0⟩) :: s.channels },
    ?_, ?_⟩
  · rw [openChannel, if_neg (by simp [hrole]), if_neg (by simp [hclosed])]
  · rw [chan_mk_cons_self]

/-! ## Batch creation analysis -/

/-- The only external transaction that creates a batch record is
`settleChannel` (the registration routine is `internal`). -/
theorem batch_created_only_by_settle {e : Env} {c : ExtCall} {s s' : State}
    {b : BatchId} (h : extStep e c s = .ok s')
    (hfresh : (s.batch b).exists_ = false)
    (hex' : (s'.batch b).exists_ = true) :
    ∃ sender cid l recovered, c = ExtCall.settleChannel sender cid l recovered := by
  cases c with
  | settleChannel sender cid l recovered =>
    exact ⟨sender, cid, l, recovered, rfl⟩
  | verifySupplyChainTransfer sender bid loc extra recovered =>
    exfalso
    obtain ⟨hex, _, _, _, _, _, _, _, hframe, _, hbid⟩ := verify_ok_destruct h
    by_cases hb : b = bid
    · subst hb
      rw [hex] at hfresh
      simp at hfresh
    · rw [hframe b hb, hfresh] at hex'
      simp at hex'
  | claimCustomerReward sender bid =>
    exfalso
    replace h : claimCustomerReward sender e.now bid s = .ok s' := h
    rw [claimCustomerReward] at h
    cases htr : claimCustomerRewardTr sender e.now bid s with
    | error er => rw [htr] at h; simp [Except.map] at h
    | ok out =>
      rw [htr] at h
      simp only [Except.map] at h
      obtain ⟨s2, tr⟩ := out
      simp only [Except.ok.injEq] at h
      subst h
      obtain ⟨hex, _, _, _, _, _, hframe, hbid, _⟩ := claimTr_ok_destruct htr
      by_cases hb : b = bid
      · subst hb
        rw [hex] at hfresh
        simp at hfresh
      · rw [hframe b hb, hfresh] at hex'
        simp at hex'
  | openChannel sender cid ps =>
    exfalso
    obtain ⟨_, _, hb, _⟩ := openChannel_ok_destruct h
    rw [batch_eq_of_batches_eq hb b, hfresh] at hex'
    simp at hex'
  | closeChannel sender cid =>
    exfalso
    obtain ⟨_, _, hb, _⟩ := closeChannel_ok_destruct h
    rw [batch_eq_of_batches_eq hb b, hfresh] at hex'
    simp at hex'

/-! ## Reachability of the concrete states -/

theorem reachable_exChanOpen : Reachable exChanOpen :=
  @Reachable.step (envAt 50) (.openChannel 9 77 [9]) initialState exChanOpen
    Reachable.init (by decide)

theorem reachable_exSettled : Reachable exSettled :=
  @Reachable.step (envAt 50) (.settleChannel 9 77 [exData1] 9) exChanOpen exSettled
    reachable_exChanOpen (by decide)

theorem reachable_exVerified : Reachable exVerified :=
  @Reachable.step (envAt 60) (.verifySupplyChainTransfer 1 "B1" "Mumbai" "ok" 1)
    exSettled exVerified reachable_exSettled (by decide)

theorem reachable_exChanClosed : Reachable exChanClosed :=
  @Reachable.step (envAt 60) (.closeChannel 9 77) exChanOpen exChanClosed
    reachable_exChanOpen (by decide)

/-! ## The claims -/

/-- C1: `claimCustomerReward` has **no expiry check**.  In the reachable
state `exVerified` the batch `"B1"` expired at time `100` and is fully
verified; at `block.timestamp = 200` (past expiry) a non-participant's claim
nevertheless succeeds and marks the reward claimed, instead of failing with
an `Expired` error as the specification (and the repository's own test
`"Should prevent reward claim for expired medicine"`) requires. -/
theorem claimReward_succeeds_past_expiry :
    (exVerified.batch "B1").expiryDate = 100
    ∧ (exVerified.batch "B1").verifiedCount = (exVerified.batch "B1").totalParticipants
    ∧ (exVerified.batch "B1").rewardClaimed = false
    ∧ (exVerified.batch "B1").isParticipant.contains 2 = false
    ∧ (extStep (envAt 200) (.claimCustomerReward 2 "B1") exVerified).isOk = true
    ∧ ((okOr (extStep (envAt 200) (.claimCustomerReward 2 "B1") exVerified)
          initialState).batch "B1").rewardClaimed = true := by
  decide

/-- C2: `registerBatchWithSupplyChain` has **no maximum-participant check**.
A registration with 21 distinct nonzero participants (the spec's and the
repository's own test's over-limit scenario) succeeds and creates the batch
with `totalParticipants = 21`, instead of failing with `TooManyParticipants`. -/
theorem registerBatch_accepts_21_participants :
    ex21Addrs.length = 21 ∧ ex21Addrs.Nodup
    ∧ ex21Reg.isOk = true
    ∧ ((okOr ex21Reg initialState).batch "B2").exists_ = true
    ∧ ((okOr ex21Reg initialState).batch "B2").totalParticipants = 21 := by
  decide

/-- C3 counterexample: a channel id **can** be reopened after closing.
Channel `77` is opened, closed by `closeChannel`, and a second `openChannel`
on the same id then succeeds and leaves the channel open again — refuting
"once a channel id has been closed, no subsequent operation can return that
channel id to the open state". -/
theorem channel_reopened_after_close :
    (exChanOpen.chan 77).isOpen = true
    ∧ (exChanClosed.chan 77).isOpen = false
    ∧ (extStep (envAt 70) (.openChannel 9 77 [5]) exChanClosed).isOk = true
    ∧ ((okOr (extStep (envAt 70) (.openChannel 9 77 [5]) exChanClosed)
          initialState).chan 77).isOpen = true := by
  decide

/-- C3 (amended): the contract's channel status is a single `isOpen` boolean.
From a closed channel id: the only transaction that makes it open again is
`openChannel` on that id; `openChannel` by a `CHANNEL_ROLE` holder does
succeed on it (so closing is *not* terminal); and `settleChannel` and
`closeChannel` on it fail. -/
theorem channel_closed_not_terminal (e : Env) (c : ExtCall) (s s' : State)
    (cid : ChannelId) (hstep : extStep e c s = .ok s')
    (hclosed : (s.chan cid).isOpen = false) :
    ((s'.chan cid).isOpen = true → ∃ sender ps, c = ExtCall.openChannel sender cid ps)
    ∧ (∀ sender ps, e.hasChannelRole sender = true →
        ∃ s2, extStep e (ExtCall.openChannel sender cid ps) s = .ok s2
          ∧ (s2.chan cid).isOpen = true)
    ∧ (∀ sender l recovered,
        extStep e (ExtCall.settleChannel sender cid l recovered) s
          = .error .ChannelNotOpen)
    ∧ (∀ sender, (extStep e (ExtCall.closeChannel sender cid) s).isOk = false) := by
  refine ⟨fun hopen' => chan_open_only_by_openChannel hstep hclosed hopen',
    fun sender ps hrole => openChannel_reopens hrole hclosed,
    fun sender l recovered => settle_closed hclosed, fun sender => ?_⟩
  cases hres : extStep e (ExtCall.closeChannel sender cid) s with
  | error er => rfl
  | ok s2 =>
    exfalso
    obtain ⟨_, hopen, _⟩ := closeChannel_ok_destruct hres
    rw [hclosed] at hopen
    simp at hopen

theorem channel_closed_not_terminal_witness :
    ((((okOr (extStep (envAt 70) (.openChannel 9 77 [5]) exChanClosed)
          initialState)).chan 77).isOpen = true
      → ∃ sender ps, (ExtCall.openChannel 9 77 [5] : ExtCall)
          = ExtCall.openChannel sender 77 ps)
    ∧ (∀ sender ps, (envAt 70).hasChannelRole sender = true →
        ∃ s2, extStep (envAt 70) (ExtCall.openChannel sender 77 ps) exChanClosed
            = .ok s2 ∧ (s2.chan 77).isOpen = true)
    ∧ (∀ sender l recovered,
        extStep (envAt 70) (ExtCall.settleChannel sender 77 l recovered) exChanClosed
          = .error .ChannelNotOpen)
    ∧ (∀ sender,
        (extStep (envAt 70) (ExtCall.closeChannel sender 77) exChanClosed).isOk
          = false) :=
  channel_closed_not_terminal (envAt 70) (.openChannel 9 77 [5]) exChanClosed
    (okOr (extStep (envAt 70) (.openChannel 9 77 [5]) exChanClosed) initialState)
    77 (by decide) (by decide)

/-- C4 counterexample: with a valid open channel and authorized signature, a
settlement list containing one well-formed fresh entry (`"B5"`) and one
malformed fresh entry (`"B4"`, expiry `40 ≤ 50`) reverts whole with
`"Expiry date must be in future"`: the well-formed entry is **not**
registered and the channel does **not** settle — refuting "fails only that
single item; all other entries are still registered and the channel
completes settlement". -/
theorem settle_mixed_list_reverts :
    (exChanOpen.chan 77).isOpen = true
    ∧ isChannelParticipant exChanOpen 77 9 = true
    ∧ (exChanOpen.batch "B5").exists_ = false
    ∧ (exChanOpen.batch "B4").exists_ = false
    ∧ exDataBad.expiryDate = 40
    ∧ extStep (envAt 50) (.settleChannel 9 77 [exDataGood, exDataBad] 9) exChanOpen
        = .error .ExpiryNotFuture := by
  decide

/-- C4 (amended): a per-item registration failure aborts the **entire**
settlement.  If the list holds an entry with a fresh id (shared by no other
entry) whose expiry is not in the future, `settleChannel` cannot succeed:
the transaction reverts, so no entry is registered and the channel stays
open. -/
theorem settle_item_failure_aborts_settlement (sender recovered : Address)
    (now : Timestamp) (isManufacturer : Address → Bool) (cid : ChannelId)
    (l : List BatchData) (s : State) (d : BatchData)
    (hmem : d ∈ l) (hbad : ¬ d.expiryDate > now)
    (hfresh : (s.batch d.batchId).exists_ = false)
    (huniq : ∀ d' ∈ l, d'.batchId = d.batchId → d' = d) :
    (settleChannel sender now isManufacturer cid l recovered s).isOk = false := by
  cases hres : settleChannel sender now isManufacturer cid l recovered s with
  | error er => rfl
  | ok s' =>
    exfalso
    obtain ⟨_, _, _, s1, hloop, _⟩ := settle_ok_destruct hres
    exact settleLoop_fails hmem hbad hfresh huniq s1 hloop

theorem settle_item_failure_aborts_settlement_witness :
    (settleChannel 9 50 (fun a => a == 9) 77 [exDataGood, exDataBad] 9
      exChanOpen).isOk = false :=
  settle_item_failure_aborts_settlement 9 9 50 (fun a => a == 9) 77
    [exDataGood, exDataBad] exChanOpen exDataBad (by decide) (by decide)
    (by decide) (by decide)

/-- C5 counterexample: with a valid authorized signature on an open channel,
a settlement list whose single entry has a fresh id `"B6"` but a duplicated
participant address reverts with `"Duplicate participant"`, registering
nothing — the set of registered ids is **not** "exactly those entries whose
batch id is not already present". -/
theorem settle_fresh_invalid_entry_reverts :
    (exChanOpen.chan 77).isOpen = true
    ∧ isChannelParticipant exChanOpen 77 9 = true
    ∧ (exChanOpen.batch "B6").exists_ = false
    ∧ extStep (envAt 50) (.settleChannel 9 77 [exDataDup] 9) exChanOpen
        = .error .DuplicateParticipant := by
  decide

/-- C5 (amended): for settlement payloads all of whose entries satisfy the
per-item registration preconditions, `settleChannel` on an open channel with
an authorized signer succeeds, leaves every already-present batch unchanged,
registers exactly the fresh ids of the list, and closes the channel; and
re-submitting any settlement against a channel that is not open fails with
`"Channel not open"` (a revert, so with no effect). -/
theorem settle_registers_exactly_fresh_ids (sender recovered : Address)
    (now : Timestamp) (isManufacturer : Address → Bool) (cid : ChannelId)
    (l : List BatchData) (s : State) (hreach : Reachable s)
    (hopen : (s.chan cid).isOpen = true)
    (hsig : isChannelParticipant s cid recovered = true)
    (hman : isManufacturer recovered = true)
    (hvalid : ∀ d ∈ l, validBatchData now d) :
    (∃ s', settleChannel sender now isManufacturer cid l recovered s = .ok s'
      ∧ (∀ b, (s.batch b).exists_ = true → s'.batch b = s.batch b)
      ∧ (∀ b, (s.batch b).exists_ = false →
          ((s'.batch b).exists_ = true ↔ b ∈ l.map BatchData.batchId))
      ∧ (s'.chan cid).isOpen = false)
    ∧ (∀ s0 : State, (s0.chan cid).isOpen = false →
        settleChannel sender now isManufacturer cid l recovered s0
          = .error .ChannelNotOpen) := by
  obtain ⟨s1, hloop, hkeep, hiff⟩ :=
    @settleLoop_registers sender now cid l s (reachable_stateOk hreach) hvalid
  refine ⟨⟨_, settle_ok_build hopen hsig hman hloop, ?_, ?_, ?_⟩,
    fun s0 h0 => settle_closed h0⟩
  · intro b hb
    rw [batch_eq_of_batches_eq rfl b]
    exact hkeep b hb
  · intro b hb
    rw [batch_eq_of_batches_eq rfl b]
    exact hiff b hb
  · rw [chan_mk_cons_self]

theorem settle_registers_exactly_fresh_ids_witness :
    (∃ s', settleChannel 9 50 (fun a => a == 9) 77 [exData1] 9 exChanOpen = .ok s'
      ∧ (∀ b, (exChanOpen.batch b).exists_ = true → s'.batch b = exChanOpen.batch b)
      ∧ (∀ b, (exChanOpen.batch b).exists_ = false →
          ((s'.batch b).exists_ = true ↔ b ∈ [exData1].map BatchData.batchId))
      ∧ (s'.chan 77).isOpen = false)
    ∧ (∀ s0 : State, (s0.chan 77).isOpen = false →
        settleChannel 9 50 (fun a => a == 9) 77 [exData1] 9 s0
          = .error .ChannelNotOpen) :=
  settle_registers_exactly_fresh_ids 9 9 50 (fun a => a == 9) 77 [exData1]
    exChanOpen reachable_exChanOpen (by decide) (by decide) (by decide)
    (by intro d hd; simp at hd; subst hd; exact ⟨by decide, by decide, by decide,
      by decide, by decide⟩)

/-- C6: the contract exposes **no** direct registration entry point:
`registerBatchWithSupplyChain` is `internal`, and among the contract's
external transactions only `settleChannel` can turn a non-existent batch id
into an existing one.  (The repository's own tests and the backend ABI call
`registerBatchWithSupplyChain` externally, which this contract does not
allow.) -/
theorem registration_only_via_settlement (e : Env) (c : ExtCall) (s s' : State)
    (b : BatchId) (hstep : extStep e c s = .ok s')
    (hfresh : (s.batch b).exists_ = false) (hex' : (s'.batch b).exists_ = true) :
    ∃ sender cid l recovered, c = ExtCall.settleChannel sender cid l recovered :=
  batch_created_only_by_settle hstep hfresh hex'

theorem registration_only_via_settlement_witness :
    ∃ sender cid l recovered, (ExtCall.settleChannel 9 77 [exData1] 9 : ExtCall)
      = ExtCall.settleChannel sender cid l recovered :=
  registration_only_via_settlement (envAt 50) (.settleChannel 9 77 [exData1] 9)
    exChanOpen exSettled "B1" (by decide) (by decide) (by decide)

/-- C7: the guards of `verifySupplyChainTransfer` on an existing batch, in
the code's order: a caller the batch does not list fails with
`"Not authorized participant"`; a listed caller on a reward-claimed batch
fails with `"Batch already completed"`; a listed, already-verified caller
with a valid signature on an uncompleted batch fails with
`"Already verified"`.  Each failure is a revert, so no state changes. -/
theorem verify_guard_errors (s : State) (hreach : Reachable s) (bid : BatchId)
    (sender : Address) (now : Timestamp) (recovered : Address)
    (loc extra : String) (hex : (s.batch bid).exists_ = true) :
    ((s.batch bid).isParticipant.contains sender = false →
      verifySupplyChainTransfer sender now recovered bid loc extra s
        = .error .NotAuthorizedParticipant)
    ∧ ((s.batch bid).isParticipant.contains sender = true →
        (s.batch bid).rewardClaimed = true →
        verifySupplyChainTransfer sender now recovered bid loc extra s
          = .error .BatchAlreadyCompleted)
    ∧ (∀ p ∈ (s.batch bid).supplyChainParticipants,
        p.participantAddress = sender → p.hasVerified = true →
        (s.batch bid).rewardClaimed = false → recovered = sender →
        verifySupplyChainTransfer sender now recovered bid loc extra s
          = .error .AlreadyVerified) := by
  refine ⟨fun hc => verify_error_notAuthorized hex hc,
    fun hc hrc => verify_error_completed hex hc hrc,
    fun p hp haddr hv hrc hrec => ?_⟩
  subst haddr
  subst hrec
  exact verify_error_alreadyVerified (reachable_stateOk hreach) hex hrc hp hv

theorem verify_guard_errors_witness :
    ((exVerified.batch "B1").isParticipant.contains 1 = false →
      verifySupplyChainTransfer 1 61 1 "B1" "L" "D" exVerified
        = .error .NotAuthorizedParticipant)
    ∧ ((exVerified.batch "B1").isParticipant.contains 1 = true →
        (exVerified.batch "B1").rewardClaimed = true →
        verifySupplyChainTransfer 1 61 1 "B1" "L" "D" exVerified
          = .error .BatchAlreadyCompleted)
    ∧ (∀ p ∈ (exVerified.batch "B1").supplyChainParticipants,
        p.participantAddress = 1 → p.hasVerified = true →
        (exVerified.batch "B1").rewardClaimed = false → (1 : Address) = 1 →
        verifySupplyChainTransfer 1 61 1 "B1" "L" "D" exVerified
          = .error .AlreadyVerified) :=
  verify_guard_errors exVerified reachable_exVerified "B1" 1 61 1 "L" "D"
    (by decide)

/-- C8: in every reachable state, a batch's `verifiedCount` is bounded by its
`totalParticipants`; a single external transaction never decreases it and
increases it by at most one; and a participant whose entry has already
verified can never make another successful verification call (so each
distinct participant contributes at most one increment). -/
theorem verifiedCount_invariant (s : State) (hreach : Reachable s) (b : BatchId) :
    (s.batch b).verifiedCount ≤ (s.batch b).totalParticipants
    ∧ (∀ e c s', extStep e c s = .ok s' →
        (s.batch b).verifiedCount ≤ (s'.batch b).verifiedCount
        ∧ (s'.batch b).verifiedCount ≤ (s.batch b).verifiedCount + 1)
    ∧ (∀ p ∈ (s.batch b).supplyChainParticipants, p.hasVerified = true →
        ∀ now recovered loc extra s',
          verifySupplyChainTransfer p.participantAddress now recovered b loc extra s
            ≠ .ok s') := by
  have hs := reachable_stateOk hreach
  refine ⟨?_, fun e c s' h => extStep_count hs h b,
    fun p hp hv now recovered loc extra s' =>
      verify_fails_of_verified hs hp hv now recovered loc extra s'⟩
  cases hx : (s.batch b).exists_ with
  | false =>
    rw [hs.fresh b hx]
    exact le_refl _
  | true =>
    have hok := hs.ok b hx
    rw [hok.count_eq, hok.total_eq]
    exact List.length_filter_le _ _

theorem verifiedCount_invariant_witness :
    (exVerified.batch "B1").verifiedCount ≤ (exVerified.batch "B1").totalParticipants
    ∧ (∀ e c s', extStep e c exVerified = .ok s' →
        (exVerified.batch "B1").verifiedCount ≤ (s'.batch "B1").verifiedCount
        ∧ (s'.batch "B1").verifiedCount ≤ (exVerified.batch "B1").verifiedCount + 1)
    ∧ (∀ p ∈ (exVerified.batch "B1").supplyChainParticipants, p.hasVerified = true →
        ∀ now recovered loc extra s',
          verifySupplyChainTransfer p.participantAddress now recovered "B1" loc extra
            exVerified ≠ .ok s') :=
  verifiedCount_invariant exVerified reachable_exVerified "B1"

/-- The result of the instrumented claim on the concrete scenario. -/
def exClaimOut : State × List ClaimEvent :=
  match claimCustomerRewardTr 2 200 "B1" exVerified with
  | .ok out => out
  | .error _ => (initialState, [])

/-- C9: in every successful `claimCustomerReward`, the storage writes
(`rewardClaimed`, claimant, timestamp) come strictly before the external
`mediToken.mint` call in the effect trace, and the storage state at the
moment mint is invoked already has `rewardClaimed = true` — mint is never
called while `rewardClaimed` is still false. -/
theorem claim_writes_precede_mint (sender : Address) (now : Timestamp)
    (bid : BatchId) (s s' : State) (tr : List ClaimEvent)
    (h : claimCustomerRewardTr sender now bid s = .ok (s', tr)) :
    (∀ st dest amt, ClaimEvent.mint st dest amt ∈ tr →
      (st.batch bid).rewardClaimed = true)
    ∧ ∃ pre post, tr = pre ++ ClaimEvent.mint s' sender customerReward :: post
        ∧ ClaimEvent.setRewardClaimed bid true ∈ pre := by
  obtain ⟨hex, hrc, hvc, hps, hch, hbp, hframe, hbid, htr⟩ := claimTr_ok_destruct h
  have hclaimed : (s'.batch bid).rewardClaimed = true := by rw [hbid]
  constructor
  · intro st dest amt hmem
    rw [htr] at hmem
    simp only [List.mem_cons, List.not_mem_nil, or_false] at hmem
    rcases hmem with h1 | h1 | h1 | h1
    · exact absurd h1 (by simp)
    · exact absurd h1 (by simp)
    · exact absurd h1 (by simp)
    · simp only [ClaimEvent.mint.injEq] at h1
      rw [h1.1]
      exact hclaimed
  · exact ⟨[.setRewardClaimed bid true, .setRewardClaimedBy bid sender,
      .setRewardClaimedAt bid now], [], by rw [htr]; rfl, by simp⟩

theorem claim_writes_precede_mint_witness :
    (∀ st dest amt, ClaimEvent.mint st dest amt ∈ exClaimOut.2 →
      (st.batch "B1").rewardClaimed = true)
    ∧ ∃ pre post, exClaimOut.2
          = pre ++ ClaimEvent.mint exClaimOut.1 2 customerReward :: post
        ∧ ClaimEvent.setRewardClaimed "B1" true ∈ pre :=
  claim_writes_precede_mint 2 200 "B1" exVerified exClaimOut.1 exClaimOut.2
    (by decide)

/-- C10: in every reachable state, querying `getParticipantDetails` for an
existing batch and an identity that is not one of its participants does not
fail: it returns the zero participant record (role `NONE`, `hasVerified`
false, zero timestamp, empty location and auxiliary data) — exactly what a
listed never-verified participant registered with role `NONE` would return —
and the query fails precisely on non-existent batch ids. -/
theorem participantDetails_nonparticipant_default (s : State)
    (hreach : Reachable s) (bid : BatchId) (a : Address)
    (hex : (s.batch bid).exists_ = true)
    (hnp : a ∉ (s.batch bid).supplyChainParticipants.map (·.participantAddress)) :
    getParticipantDetails s bid a = .ok (SupplyChainRole.NONE, false, 0, "", "")
    ∧ (∀ b x, (∃ err, getParticipantDetails s b x = .error err)
        ↔ (s.batch b).exists_ = false) := by
  have hs := reachable_stateOk hreach
  have hc : (s.batch bid).isParticipant.contains a = false := by
    cases hcc : (s.batch bid).isParticipant.contains a
    · rfl
    · exact absurd (((hs.ok bid hex).mem_iff a).mp hcc) hnp
  have hbp := hs.bpDefault bid a hc
  constructor
  · rw [getParticipantDetails, if_neg (by simp [hex])]
    dsimp only
    rw [hbp]
    rfl
  · intro b x
    constructor
    · rintro ⟨err, herr⟩
      cases hxx : (s.batch b).exists_ with
      | false => rfl
      | true =>
        rw [getParticipantDetails, if_neg (by simp [hxx])] at herr
        simp at herr
    · intro hb
      exact ⟨.BatchNotFound, by rw [getParticipantDetails, if_pos hb]⟩

theorem participantDetails_nonparticipant_default_witness :
    getParticipantDetails exSettled "B1" 4
        = .ok (SupplyChainRole.NONE, false, 0, "", "")
    ∧ (∀ b x, (∃ err, getParticipantDetails exSettled b x = .error err)
        ↔ (exSettled.batch b).exists_ = false) :=
  participantDetails_nonparticipant_default exSettled reachable_exSettled "B1" 4
    (by decide) (by decide)
